import Mathlib

/-!
Shallow embedding of the snake game in `snakes/game.py` (class `Game`,
function `next_location`), together with proofs of the specification
claims about it.

Modelling conventions:
* Python `float` sleep times are modelled as rationals (the only
  operation used is multiplication by 0.9).
* `random.randint` sampling is modelled by an oracle stream
  `s : Nat → Nat × Nat` whose values are reduced modulo the grid
  extents; the rejection-sampling loop of `__generate_food` receives
  explicit fuel, returning `none` when the fuel is exhausted.
* The `list[list[Cell]]` grid is modelled as `List (List Cell)`;
  in-place field assignments become functional updates.
* `sys.exit` / failing `assert` statements become explicit outcome
  constructors of `MoveOutcome`.
-/

namespace Snakes

/-- `class Direction(int, Enum)` from `snakes/game.py`. -/
inductive Direction : Type
  | left
  | down
  | right
  | up
deriving DecidableEq, Repr, Fintype

/-- `Direction.opposite` from `snakes/game.py`. -/
def Direction.opposite : Direction → Direction
  | .left => .right
  | .right => .left
  | .up => .down
  | .down => .up

/-- Cell content constant `EMPTY = " "`. -/
def EMPTY : String := " "

/-- Cell content constant `BODY = "0"`. -/
def BODY : String := "0"

/-- Cell content constant `HEAD = "#"`. -/
def HEAD : String := "#"

/-- Cell content constant `FOOD = "@"`. -/
def FOOD : String := "@"

/-- `@dataclass class Cell` from `snakes/game.py`: a value (one of the
four glyph strings) and an optional movement direction. -/
structure Cell : Type where
  value : String := EMPTY
  moving : Option Direction := none
deriving DecidableEq, Repr

instance : Inhabited Cell := ⟨{}⟩

/-- `Cell.is_empty`. -/
def Cell.is_empty (c : Cell) : Bool := c.value = EMPTY

/-- `Cell.is_body`. -/
def Cell.is_body (c : Cell) : Bool := c.value = BODY

/-- `Cell.is_head`. -/
def Cell.is_head (c : Cell) : Bool := c.value = HEAD

/-- `Cell.is_food`. -/
def Cell.is_food (c : Cell) : Bool := c.value = FOOD

/-- `Row = list[Cell]`. -/
abbrev Row : Type := List Cell

/-- `Grid = list[Row]`. -/
abbrev Grid : Type := List Row

/-- Reading `grid[x][y]` (always done in range by the source; out of
range we return a default empty cell). -/
def getCell (g : Grid) (x y : Nat) : Cell := (g.getD x []).getD y {}

/-- The in-place assignment `grid[x][y].value = v`. -/
def setCellValue (g : Grid) (x y : Nat) (v : String) : Grid :=
  g.set x ((g.getD x []).set y { getCell g x y with value := v })

/-- The in-place assignment `grid[x][y].moving = m`. -/
def setCellMoving (g : Grid) (x y : Nat) (m : Option Direction) : Grid :=
  g.set x ((g.getD x []).set y { getCell g x y with moving := m })

/-- The grid produced by `Game.__generate_screen` (and the fresh
`new_grid` allocated by `move_snake`): all cells empty. -/
def emptyGrid (rows cols : Nat) : Grid :=
  List.replicate rows (List.replicate cols {})

/-- The grid has exactly `rows` rows of exactly `cols` cells each. -/
def gridWF (rows cols : Nat) (g : Grid) : Prop :=
  g.length = rows ∧ ∀ i, i < rows → (g.getD i []).length = cols

instance (rows cols : Nat) (g : Grid) : Decidable (gridWF rows cols g) := by
  unfold gridWF; infer_instance

/-- A coordinate pair lies inside `[0,rows) × [0,cols)`. -/
def inRange (rows cols : Nat) (p : Nat × Nat) : Prop :=
  p.1 < rows ∧ p.2 < cols

instance (rows cols : Nat) (p : Nat × Nat) : Decidable (inRange rows cols p) := by
  unfold inRange; infer_instance

/-- The row-major enumeration of all grid coordinates, i.e. the
iteration order of the nested `for i, row in enumerate(grid)` /
`for j, cell in enumerate(row)` loops of `move_snake`. -/
def scanPositions (rows cols : Nat) : List (Nat × Nat) :=
  (List.range rows).flatMap (fun i => (List.range cols).map (fun j => (i, j)))

/-- `next_location` from `snakes/game.py`: toroidal step.  Python's `%`
on ints agrees with `Int.emod` for a positive modulus. -/
def next_location (row_count col_count : Nat) (x y : Nat) (direction : Direction) :
    Nat × Nat :=
  match direction with
  | .left => (x, ((((y : Int) - 1) % (col_count : Int)).toNat))
  | .right => (x, ((((y : Int) + 1) % (col_count : Int)).toNat))
  | .down => (((((x : Int) + 1) % (row_count : Int)).toNat), y)
  | .up => (((((x : Int) - 1) % (row_count : Int)).toNat), y)

/-- `Game.update_sleep_time`: `self.__sleep_time *= 0.9`. -/
def update_sleep_time (t : ℚ) : ℚ := t * (9 / 10)

/-- The state owned by the `Game` object (grid, cached head and food
positions, score, sleep time, termination flags). -/
structure Game : Type where
  row_count : Nat
  col_count : Nat
  grid : Grid
  head : Nat × Nat
  sleep_time : ℚ
  food : Nat × Nat
  score : Nat
  game_over : Bool
  quit : Bool
deriving DecidableEq, Repr

/-- `Game.__generate_food`: rejection-sample positions from the oracle
stream `s` (reduced modulo the extents, mirroring
`random.randint(0, row_count - 1)`), until an empty cell is found; that
cell's value is set to `FOOD`.  `fuel` bounds the number of attempts;
`k` is the index of the next oracle value to consume. -/
def generate_food (rows cols : Nat) (s : Nat → Nat × Nat) (g : Grid) :
    Nat → Nat → Option ((Nat × Nat) × Grid)
  | 0, _ => none
  | fuel + 1, k =>
    let x := (s k).1 % rows
    let y := (s k).2 % cols
    if (getCell g x y).is_empty then
      some ((x, y), setCellValue g x y FOOD)
    else
      generate_food rows cols s g fuel (k + 1)

/-- The possible outcomes of one call to `Game.move_snake`. -/
inductive MoveOutcome : Type
  /-- The final `update_grid_and_head(new_grid, new_head)` commit. -/
  | ok (g : Game)
  /-- The food fast path: early return after in-place mutation. -/
  | ate (g : Game)
  /-- Self-collision: `game_over = True` then `sys.exit(0)`. -/
  | exit (g : Game)
  /-- The `assert cell.moving is not None` failed. -/
  | errMovingNone
  /-- The `assert cell.is_head()` on the food fast path failed. -/
  | errFoodBody
  /-- `new_head` was never assigned before the final commit
  (`UnboundLocalError`). -/
  | errNoHead
  /-- `__generate_food` ran out of fuel. -/
  | errFoodGen
deriving DecidableEq, Repr

/-- The cell-scanning loop of `Game.move_snake`, processing the listed
positions in order while accumulating the candidate grid `newGrid` and
the optional new head position. -/
def move_snake_scan (gm : Game) (s : Nat → Nat × Nat) (fuel : Nat) :
    List (Nat × Nat) → Grid → Option (Nat × Nat) → MoveOutcome
  | [], newGrid, some hpos => .ok { gm with grid := newGrid, head := hpos }
  | [], _, none => .errNoHead
  | (i, j) :: rest, newGrid, newHead =>
    let cell := getCell gm.grid i j
    if cell.is_empty then
      move_snake_scan gm s fuel rest newGrid newHead
    else if cell.is_food then
      move_snake_scan gm s fuel rest (setCellValue newGrid i j FOOD) newHead
    else
      match cell.moving with
      | none => .errMovingNone
      | some mv =>
        let nl := next_location gm.row_count gm.col_count i j mv
        if (getCell gm.grid nl.1 nl.2).is_food then
          if cell.is_head then
            let g2 := setCellMoving (setCellValue gm.grid i j BODY) i j (some mv)
            let g4 := setCellMoving (setCellValue g2 nl.1 nl.2 HEAD) nl.1 nl.2 (some mv)
            match generate_food gm.row_count gm.col_count s g4 fuel 0 with
            | none => .errFoodGen
            | some (q, g5) =>
              .ate { gm with
                       grid := g5
                       head := nl
                       score := gm.score + 1
                       food := q
                       sleep_time := update_sleep_time gm.sleep_time }
          else .errFoodBody
        else
          let ng1 := setCellValue newGrid nl.1 nl.2 cell.value
          if cell.is_head then
            if (getCell gm.grid nl.1 nl.2).is_body then
              .exit { gm with game_over := true }
            else
              move_snake_scan gm s fuel rest
                (setCellMoving ng1 nl.1 nl.2 (some mv)) (some nl)
          else
            move_snake_scan gm s fuel rest
              (setCellMoving ng1 nl.1 nl.2 (getCell gm.grid nl.1 nl.2).moving) newHead

/-- `Game.move_snake`: scan every cell of the current grid in row-major
order, starting from a fresh all-empty candidate grid. -/
def move_snake (gm : Game) (s : Nat → Nat × Nat) (fuel : Nat) : MoveOutcome :=
  move_snake_scan gm s fuel (scanPositions gm.row_count gm.col_count)
    (emptyGrid gm.row_count gm.col_count) none

/-- The loop condition of `Game.refresh_game_state`:
`while not self.quit`. -/
def refresh_condition (gm : Game) : Bool := !gm.quit

/-- The loop condition of `Game.take_input`:
`while not self.game_over`. -/
def take_input_condition (gm : Game) : Bool := !gm.game_over

/-- One pass of the `refresh_game_state` loop. -/
inductive LoopStep : Type
  /-- The loop condition failed: the body was not entered. -/
  | stopped (g : Game)
  /-- The body ran: slept for `slept`, advanced, rendered; looping on. -/
  | iterated (slept : ℚ) (g : Game)
  /-- The body ran but `move_snake` terminated the thread
  (`sys.exit` on collision, or a failed assertion). -/
  | died (slept : ℚ) (g : Game)
deriving DecidableEq, Repr

/-- One iteration of `Game.refresh_game_state`: test `not self.quit`,
then `time.sleep(self.__sleep_time)` (the interval is read at this
point), then `move_snake_and_render_screen()`. -/
def refresh_step (gm : Game) (s : Nat → Nat × Nat) (fuel : Nat) : LoopStep :=
  if gm.quit then .stopped gm
  else
    match move_snake gm s fuel with
    | .ok g' => .iterated gm.sleep_time g'
    | .ate g' => .iterated gm.sleep_time g'
    | .exit g' => .died gm.sleep_time g'
    | _ => .died gm.sleep_time gm

/-- Whether a `refresh_game_state` pass entered the loop body. -/
def LoopStep.enteredBody : LoopStep → Bool
  | .stopped _ => false
  | .iterated _ _ => true
  | .died _ _ => true

/-- The sleep interval consumed by a `refresh_game_state` pass. -/
def LoopStep.slept : LoopStep → Option ℚ
  | .stopped _ => none
  | .iterated t _ => some t
  | .died t _ => some t

/-! ### Basic lemmas about grid reads and writes -/

theorem getD_set {α : Type _} (l : List α) (n m : Nat) (a d : α) :
    (l.set n a).getD m d = if n = m ∧ n < l.length then a else l.getD m d := by
  simp only [List.getD_eq_getElem?_getD, List.getElem?_set]
  by_cases h : n = m
  · subst h
    by_cases hl : n < l.length
    · simp [hl]
    · simp [hl, List.getElem?_eq_none (Nat.le_of_not_lt hl)]
  · simp [h]

theorem getCell_setCellValue_ne (g : Grid) (x y x' y' : Nat) (v : String)
    (h : (x', y') ≠ (x, y)) :
    getCell (setCellValue g x y v) x' y' = getCell g x' y' := by
  unfold getCell setCellValue
  by_cases hx : x = x'
  · subst hx
    have hy : y ≠ y' := fun hy => h (by rw [hy])
    rw [getD_set]
    by_cases hl : x < g.length
    · rw [if_pos ⟨rfl, hl⟩, getD_set, if_neg (by tauto)]
    · rw [if_neg (by tauto)]
  · rw [getD_set, if_neg (by tauto)]

theorem getCell_setCellMoving_ne (g : Grid) (x y x' y' : Nat) (m : Option Direction)
    (h : (x', y') ≠ (x, y)) :
    getCell (setCellMoving g x y m) x' y' = getCell g x' y' := by
  unfold getCell setCellMoving
  by_cases hx : x = x'
  · subst hx
    have hy : y ≠ y' := fun hy => h (by rw [hy])
    rw [getD_set]
    by_cases hl : x < g.length
    · rw [if_pos ⟨rfl, hl⟩, getD_set, if_neg (by tauto)]
    · rw [if_neg (by tauto)]
  · rw [getD_set, if_neg (by tauto)]

theorem getCell_setCellValue_self (rows cols : Nat) (g : Grid) (x y : Nat) (v : String)
    (hwf : gridWF rows cols g) (hx : x < rows) (hy : y < cols) :
    getCell (setCellValue g x y v) x y = { getCell g x y with value := v } := by
  obtain ⟨hlen, hrow⟩ := hwf
  unfold getCell setCellValue
  rw [getD_set, if_pos ⟨rfl, by omega⟩, getD_set, if_pos ⟨rfl, by rw [hrow x hx]; omega⟩]
  rfl

theorem getCell_setCellMoving_self (rows cols : Nat) (g : Grid) (x y : Nat)
    (m : Option Direction) (hwf : gridWF rows cols g) (hx : x < rows) (hy : y < cols) :
    getCell (setCellMoving g x y m) x y = { getCell g x y with moving := m } := by
  obtain ⟨hlen, hrow⟩ := hwf
  unfold getCell setCellMoving
  rw [getD_set, if_pos ⟨rfl, by omega⟩, getD_set, if_pos ⟨rfl, by rw [hrow x hx]; omega⟩]
  rfl

theorem gridWF_setCellValue (rows cols : Nat) (g : Grid) (x y : Nat) (v : String)
    (hwf : gridWF rows cols g) : gridWF rows cols (setCellValue g x y v) := by
  obtain ⟨hlen, hrow⟩ := hwf
  refine ⟨by simp [setCellValue, hlen], fun i hi => ?_⟩
  unfold setCellValue
  rw [getD_set]
  by_cases h : x = i ∧ x < g.length
  · obtain ⟨hxi, hxl⟩ := h
    subst hxi
    rw [if_pos ⟨rfl, hxl⟩, List.length_set]
    exact hrow x hi
  · rw [if_neg h]
    exact hrow i hi

theorem gridWF_setCellMoving (rows cols : Nat) (g : Grid) (x y : Nat) (m : Option Direction)
    (hwf : gridWF rows cols g) : gridWF rows cols (setCellMoving g x y m) := by
  obtain ⟨hlen, hrow⟩ := hwf
  refine ⟨by simp [setCellMoving, hlen], fun i hi => ?_⟩
  unfold setCellMoving
  rw [getD_set]
  by_cases h : x = i ∧ x < g.length
  · obtain ⟨hxi, hxl⟩ := h
    subst hxi
    rw [if_pos ⟨rfl, hxl⟩, List.length_set]
    exact hrow x hi
  · rw [if_neg h]
    exact hrow i hi

theorem getCell_emptyGrid (rows cols x y : Nat) :
    getCell (emptyGrid rows cols) x y = {} := by
  unfold getCell emptyGrid
  simp only [List.getD_eq_getElem?_getD, List.getElem?_replicate]
  by_cases hx : x < rows
  · simp only [hx, if_true]
    by_cases hy : y < cols <;> simp [hy]
  · simp [hx]

theorem gridWF_emptyGrid (rows cols : Nat) : gridWF rows cols (emptyGrid rows cols) := by
  refine ⟨by simp [emptyGrid], fun i hi => ?_⟩
  unfold emptyGrid
  simp [List.getD_eq_getElem?_getD, List.getElem?_replicate, hi]

/-- Writing value then heading at the same coordinate yields that exact cell. -/
theorem getCell_write_self (rows cols : Nat) (g : Grid) (x y : Nat) (v : String)
    (m : Option Direction) (hwf : gridWF rows cols g) (hx : x < rows) (hy : y < cols) :
    getCell (setCellMoving (setCellValue g x y v) x y m) x y = ⟨v, m⟩ := by
  rw [getCell_setCellMoving_self rows cols _ x y m
    (gridWF_setCellValue rows cols g x y v hwf) hx hy,
    getCell_setCellValue_self rows cols g x y v hwf hx hy]

theorem getCell_write_ne (g : Grid) (x y x' y' : Nat) (v : String) (m : Option Direction)
    (h : (x', y') ≠ (x, y)) :
    getCell (setCellMoving (setCellValue g x y v) x y m) x' y' = getCell g x' y' := by
  rw [getCell_setCellMoving_ne _ x y x' y' m h, getCell_setCellValue_ne g x y x' y' v h]

/-! ### The scan order -/

theorem mem_scanPositions (rows cols : Nat) (p : Nat × Nat) :
    p ∈ scanPositions rows cols ↔ inRange rows cols p := by
  unfold scanPositions inRange
  simp only [List.mem_flatMap, List.mem_range, List.mem_map]
  constructor
  · rintro ⟨i, hi, j, hj, rfl⟩
    exact ⟨hi, hj⟩
  · rintro ⟨h1, h2⟩
    exact ⟨p.1, h1, p.2, h2, rfl⟩

theorem scanPositions_nodup (rows cols : Nat) : (scanPositions rows cols).Nodup := by
  unfold scanPositions
  rw [List.nodup_flatMap]
  constructor
  · intro i _
    exact (List.nodup_range cols).map (fun a b h => by injection h)
  · have := List.pairwise_lt_range rows
    refine this.imp ?_
    intro i j hij
    intro p hp hq
    simp only [List.mem_map, List.mem_range] at hp hq
    obtain ⟨a, _, rfl⟩ := hp
    obtain ⟨b, _, h⟩ := hq
    injection h with h1 _
    omega

/-! ### `next_location` stays on the grid -/

theorem emod_toNat_lt (a : Int) (n : Nat) (h : 1 ≤ n) : (a % (n : Int)).toNat < n := by
  have h0 : (0 : Int) < n := by exact_mod_cast h
  have h1 : 0 ≤ a % (n : Int) := Int.emod_nonneg a (by omega)
  have h2 : a % (n : Int) < n := Int.emod_lt_of_pos a h0
  omega

theorem next_location_inRange (rows cols x y : Nat) (d : Direction)
    (hr : 1 ≤ rows) (hc : 1 ≤ cols) (hx : x < rows) (hy : y < cols) :
    inRange rows cols (next_location rows cols x y d) := by
  cases d <;>
    simp only [next_location, inRange] <;>
    exact ⟨by first | exact hx | exact emod_toNat_lt _ _ hr,
           by first | exact hy | exact emod_toNat_lt _ _ hc⟩

/-! ### Modular arithmetic helpers for `next_location` -/

theorem sub_one_emod_toNat (c v : Nat) (hc : 1 ≤ c) (hv : v < c) :
    (((v : Int) - 1) % (c : Int)).toNat = (v + c - 1) % c := by
  rcases Nat.eq_zero_or_pos v with hv0 | hv1
  · subst hv0
    have h1 : ((0 : Int) - 1) % (c : Int) = (c : Int) - 1 := by
      rw [(@Int.add_mul_emod_self_left ((0 : Int) - 1) (c : Int) 1).symm]
      have e : (0 : Int) - 1 + (c : Int) * 1 = (c : Int) - 1 := by ring
      rw [e]
      exact Int.emod_eq_of_lt (by omega) (by omega)
    simp only [Nat.cast_zero]
    rw [h1]
    have h2 : (0 + c - 1) % c = 0 + c - 1 := Nat.mod_eq_of_lt (by omega)
    omega
  · have h1 : ((v : Int) - 1) % (c : Int) = (v : Int) - 1 :=
      Int.emod_eq_of_lt (by omega) (by omega)
    have h2 : (v + c - 1) = (v - 1) + c := by omega
    rw [h1, h2, Nat.add_mod_right, Nat.mod_eq_of_lt (by omega)]
    omega

theorem add_one_emod_toNat (c v : Nat) (hc : 1 ≤ c) (hv : v < c) :
    (((v : Int) + 1) % (c : Int)).toNat = (v + 1) % c := by
  rcases Nat.lt_or_ge (v + 1) c with h | h
  · rw [Int.emod_eq_of_lt (by omega) (by omega), Nat.mod_eq_of_lt h]
    omega
  · have hvc : v + 1 = c := by omega
    have h1 : ((v : Int) + 1) = (c : Int) := by omega
    rw [h1, Int.emod_self, hvc, Nat.mod_self]
    rfl

theorem decr_then_incr (c v : Nat) (hc : 1 ≤ c) (hv : v < c) :
    (((v + c - 1) % c) + 1) % c = v := by
  rcases Nat.eq_zero_or_pos v with hv0 | hv1
  · subst hv0
    rw [Nat.mod_eq_of_lt (by omega : 0 + c - 1 < c)]
    have : 0 + c - 1 + 1 = c := by omega
    rw [this, Nat.mod_self]
  · have h2 : (v + c - 1) = (v - 1) + c := by omega
    rw [h2, Nat.add_mod_right, Nat.mod_eq_of_lt (by omega : v - 1 < c)]
    have : v - 1 + 1 = v := by omega
    rw [this, Nat.mod_eq_of_lt hv]

theorem incr_then_decr (c v : Nat) (hc : 1 ≤ c) (hv : v < c) :
    ((v + 1) % c + c - 1) % c = v := by
  rcases Nat.lt_or_ge (v + 1) c with h | h
  · rw [Nat.mod_eq_of_lt h]
    have h2 : (v + 1 + c - 1) = v + c := by omega
    rw [h2, Nat.add_mod_right, Nat.mod_eq_of_lt hv]
  · have hvc : v + 1 = c := by omega
    rw [hvc, Nat.mod_self]
    have h2 : 0 + c - 1 = v := by omega
    rw [h2, Nat.mod_eq_of_lt hv]

/-- C7: `next_location` is a pure total toroidal step: each direction
shifts one axis by ±1 modulo its extent, the result stays inside
`[0,rows) × [0,cols)`, and the spec's concrete examples hold. -/
theorem next_location_spec (rows cols x y : Nat)
    (hr : 1 ≤ rows) (hc : 1 ≤ cols) (hx : x < rows) (hy : y < cols) :
    next_location rows cols x y .left = (x, (y + cols - 1) % cols)
    ∧ next_location rows cols x y .right = (x, (y + 1) % cols)
    ∧ next_location rows cols x y .up = ((x + rows - 1) % rows, y)
    ∧ next_location rows cols x y .down = ((x + 1) % rows, y)
    ∧ (∀ d, inRange rows cols (next_location rows cols x y d))
    ∧ next_location 10 10 5 5 .up = (4, 5)
    ∧ next_location 10 10 0 5 .up = (9, 5) := by
  refine ⟨?_, ?_, ?_, ?_, fun d => next_location_inRange rows cols x y d hr hc hx hy,
    by decide, by decide⟩
  · simp only [next_location]
    rw [sub_one_emod_toNat cols y hc hy]
  · simp only [next_location]
    rw [add_one_emod_toNat cols y hc hy]
  · simp only [next_location]
    rw [sub_one_emod_toNat rows x hr hx]
  · simp only [next_location]
    rw [add_one_emod_toNat rows x hr hx]

/-- Closed witness for `next_location_spec`. -/
theorem next_location_spec_witness :
    next_location 10 10 5 5 .left = (5, 4) ∧ next_location 10 10 5 0 .left = (5, 9) :=
  ⟨((next_location_spec 10 10 5 5 (by decide) (by decide) (by decide)
      (by decide)).1).trans (by decide),
   ((next_location_spec 10 10 5 0 (by decide) (by decide) (by decide)
      (by decide)).1).trans (by decide)⟩

/-- C8: stepping with `d` and then with `d.opposite` returns to the
starting coordinate (round trip on the torus). -/
theorem next_location_roundtrip (rows cols x y : Nat) (d : Direction)
    (hr : 1 ≤ rows) (hc : 1 ≤ cols) (hx : x < rows) (hy : y < cols) :
    next_location rows cols (next_location rows cols x y d).1
      (next_location rows cols x y d).2 d.opposite = (x, y) := by
  cases d
  · show next_location rows cols x ((((y : Int) - 1) % (cols : Int)).toNat) .right = (x, y)
    rw [sub_one_emod_toNat cols y hc hy]
    simp only [next_location]
    rw [add_one_emod_toNat cols _ hc (Nat.mod_lt _ (by omega)),
      decr_then_incr cols y hc hy]
  · show next_location rows cols ((((x : Int) + 1) % (rows : Int)).toNat) y .up = (x, y)
    rw [add_one_emod_toNat rows x hr hx]
    simp only [next_location]
    rw [sub_one_emod_toNat rows _ hr (Nat.mod_lt _ (by omega)),
      incr_then_decr rows x hr hx]
  · show next_location rows cols x ((((y : Int) + 1) % (cols : Int)).toNat) .left = (x, y)
    rw [add_one_emod_toNat cols y hc hy]
    simp only [next_location]
    rw [sub_one_emod_toNat cols _ hc (Nat.mod_lt _ (by omega)),
      incr_then_decr cols y hc hy]
  · show next_location rows cols ((((x : Int) - 1) % (rows : Int)).toNat) y .down = (x, y)
    rw [sub_one_emod_toNat rows x hr hx]
    simp only [next_location]
    rw [add_one_emod_toNat rows _ hr (Nat.mod_lt _ (by omega)),
      decr_then_incr rows x hr hx]

/-- Closed witness for `next_location_roundtrip`. -/
theorem next_location_roundtrip_witness :
    next_location 10 10 (next_location 10 10 0 5 .up).1
      (next_location 10 10 0 5 .up).2 Direction.up.opposite = (0, 5) :=
  next_location_roundtrip 10 10 0 5 .up (by decide) (by decide) (by decide) (by decide)

/-! ### Behaviour of `generate_food` -/

theorem generate_food_some (rows cols : Nat) (s : Nat → Nat × Nat) (g : Grid)
    (hr : 1 ≤ rows) (hc : 1 ≤ cols) :
    ∀ fuel k q g', generate_food rows cols s g fuel k = some (q, g') →
      inRange rows cols q ∧ (getCell g q.1 q.2).is_empty = true ∧
        g' = setCellValue g q.1 q.2 FOOD := by
  intro fuel
  induction fuel with
  | zero => intro k q g' h; simp [generate_food] at h
  | succ n ih =>
    intro k q g' h
    simp only [generate_food] at h
    by_cases he : (getCell g ((s k).1 % rows) ((s k).2 % cols)).is_empty = true
    · rw [if_pos he] at h
      injection h with h1
      injection h1 with hq hg
      subst hq
      subst hg
      exact ⟨⟨Nat.mod_lt _ (by omega), Nat.mod_lt _ (by omega)⟩, he, rfl⟩
    · rw [if_neg he] at h
      exact ih (k + 1) q g' h

theorem generate_food_none (rows cols : Nat) (s : Nat → Nat × Nat) (g : Grid)
    (hr : 1 ≤ rows) (hc : 1 ≤ cols)
    (h : ∀ p, inRange rows cols p → (getCell g p.1 p.2).is_empty = false) :
    ∀ fuel k, generate_food rows cols s g fuel k = none := by
  intro fuel
  induction fuel with
  | zero => intro k; simp [generate_food]
  | succ n ih =>
    intro k
    have he := h ((s k).1 % rows, (s k).2 % cols)
      ⟨Nat.mod_lt _ (by omega), Nat.mod_lt _ (by omega)⟩
    simp only [generate_food, he]
    exact ih (k + 1)

theorem generate_food_hit (rows cols : Nat) (s : Nat → Nat × Nat) (g : Grid) :
    ∀ fuel k,
      (∃ n, n < fuel ∧
        (getCell g ((s (k + n)).1 % rows) ((s (k + n)).2 % cols)).is_empty = true) →
      generate_food rows cols s g fuel k ≠ none := by
  intro fuel
  induction fuel with
  | zero =>
    rintro k ⟨n, hn, -⟩
    omega
  | succ m ih =>
    rintro k ⟨n, hn, hemp⟩
    by_cases he : (getCell g ((s k).1 % rows) ((s k).2 % cols)).is_empty = true
    · simp [generate_food, he]
    · simp only [generate_food, if_neg he]
      apply ih (k + 1)
      have hn0 : n ≠ 0 := by
        rintro rfl
        rw [Nat.add_zero] at hemp
        exact he hemp
      refine ⟨n - 1, by omega, ?_⟩
      have : k + 1 + (n - 1) = k + n := by omega
      rw [this]
      exact hemp

/-- C10: food generation terminates exactly when an empty cell exists:
with no empty cell in range it returns `none` for every oracle stream
and every amount of fuel (in particular on a 1×1 grid filled by the
head); when the oracle hits an empty cell within the fuel bound it
succeeds. -/
theorem generate_food_terminates :
    (∀ rows cols g, 1 ≤ rows → 1 ≤ cols →
      (∀ p, inRange rows cols p → (getCell g p.1 p.2).is_empty = false) →
      ∀ (s : Nat → Nat × Nat) (fuel k : Nat), generate_food rows cols s g fuel k = none)
    ∧ (∀ rows cols g (s : Nat → Nat × Nat) (fuel n : Nat), n < fuel →
      (getCell g ((s n).1 % rows) ((s n).2 % cols)).is_empty = true →
      generate_food rows cols s g fuel 0 ≠ none)
    ∧ (∀ (s : Nat → Nat × Nat) (fuel k : Nat),
      generate_food 1 1 s [[{ value := HEAD, moving := some Direction.up }]] fuel k = none) := by
  refine ⟨fun rows cols g hr hc h s fuel k => generate_food_none rows cols s g hr hc h fuel k,
    fun rows cols g s fuel n hn hemp =>
      generate_food_hit rows cols s g fuel 0 ⟨n, hn, by simpa using hemp⟩,
    fun s fuel k => ?_⟩
  apply generate_food_none 1 1 s _ (by omega) (by omega) _ fuel k
  intro p hp
  obtain ⟨h1, h2⟩ := hp
  have hp1 : p.1 = 0 := by omega
  have hp2 : p.2 = 0 := by omega
  rw [show p = (0, 0) from Prod.ext hp1 hp2]
  rfl

/-- Closed witness for `generate_food_terminates`: the 1×1 head-filled
grid never yields food, while a 2×1 grid with an empty cell does. -/
theorem generate_food_terminates_witness :
    generate_food 1 1 (fun _ => (0, 0)) [[{ value := HEAD, moving := some Direction.up }]]
        5 0 = none
    ∧ generate_food 2 1 (fun _ => (1, 0))
        [[{ value := HEAD, moving := some Direction.up }], [{}]] 5 0 ≠ none :=
  ⟨generate_food_terminates.2.2 (fun _ => (0, 0)) 5 0,
   generate_food_terminates.2.1 2 1 [[{ value := HEAD, moving := some Direction.up }], [{}]]
     (fun _ => (1, 0)) 5 0 (by omega) (by decide)⟩

/-! ### C9: the missing-heading assertion is unreachable -/

theorem scan_never_missing_heading (gm : Game) (s : Nat → Nat × Nat) (fuel : Nat) :
    ∀ (L : List (Nat × Nat)) (N : Grid) (hOpt : Option (Nat × Nat)),
      (∀ p ∈ L, (getCell gm.grid p.1 p.2).is_empty = false →
        (getCell gm.grid p.1 p.2).is_food = false →
        (getCell gm.grid p.1 p.2).moving ≠ none) →
      move_snake_scan gm s fuel L N hOpt ≠ .errMovingNone := by
  intro L
  induction L with
  | nil =>
    intro N hOpt _
    cases hOpt <;> simp [move_snake_scan]
  | cons p rest ih =>
    obtain ⟨i, j⟩ := p
    intro N hOpt hbenign
    have hp := hbenign (i, j) (List.mem_cons_self _ _)
    have htail := fun q hq => hbenign q (List.mem_cons_of_mem _ hq)
    simp only [move_snake_scan]
    by_cases he : (getCell gm.grid i j).is_empty = true
    · rw [if_pos he]
      exact ih N hOpt htail
    · rw [if_neg he]
      by_cases hf : (getCell gm.grid i j).is_food = true
      · rw [if_pos hf]
        exact ih _ hOpt htail
      · rw [if_neg hf]
        have hef : (getCell gm.grid i j).is_empty = false := by
          revert he; cases (getCell gm.grid i j).is_empty <;> simp
        have hff : (getCell gm.grid i j).is_food = false := by
          revert hf; cases (getCell gm.grid i j).is_food <;> simp
        split
        · rename_i hmv
          exact absurd hmv (hp hef hff)
        · split
          · split
            · split
              · nofun
              · nofun
            · nofun
          · split
            · split
              · nofun
              · exact ih _ _ htail
            · exact ih _ _ htail

/-- C9: if every occupied non-food cell of the grid carries a heading,
`move_snake` never aborts with the missing-heading assertion. -/
theorem move_snake_missing_heading_unreachable (gm : Game) (s : Nat → Nat × Nat)
    (fuel : Nat)
    (h : ∀ p ∈ scanPositions gm.row_count gm.col_count,
      (getCell gm.grid p.1 p.2).is_empty = false →
      (getCell gm.grid p.1 p.2).is_food = false →
      (getCell gm.grid p.1 p.2).moving ≠ none) :
    move_snake gm s fuel ≠ .errMovingNone :=
  scan_never_missing_heading gm s fuel _ _ _ h

/-! ### Concrete states used by witnesses and counterexamples -/

/-- The constant position oracle. -/
def str0 : Nat → Nat × Nat := fun _ => (0, 0)

/-- A 2×2 game: lone head at (0,0) heading right, food at (1,1),
with `game_over` already set and `quit` unset. -/
def gOverG : Game :=
  { row_count := 2, col_count := 2
    grid := [[{ value := HEAD, moving := some .right }, {}], [{}, { value := FOOD }]]
    head := (0, 0), sleep_time := 1, food := (1, 1)
    score := 0, game_over := true, quit := false }

/-- Closed witness for `move_snake_missing_heading_unreachable`. -/
theorem move_snake_missing_heading_witness :
    move_snake { gOverG with game_over := false } str0 2 ≠ .errMovingNone :=
  move_snake_missing_heading_unreachable { gOverG with game_over := false } str0 2
    (by decide)

/-! ### C3: the tick-scheduler loop condition -/

/-- C3 counterexample: `refresh_game_state`'s loop condition is
`while not self.quit` alone, so from a state with `game_over = true`
and `quit = false` the loop still enters its body and performs a full
iteration, contradicting the claimed "iff neither flag is set". -/
theorem refresh_step_ignores_game_over :
    gOverG.game_over = true ∧ gOverG.quit = false ∧
      (refresh_step gOverG str0 2).enteredBody = true := by
  refine ⟨rfl, rfl, ?_⟩
  decide

/-- C3 (amended): one pass of the `refresh_game_state` loop enters its
body exactly when `quit` is unset — `game_over` is not consulted by the
condition; the sleep interval consumed is the `sleep_time` current at
the start of that pass. -/
theorem refresh_step_quit_only (gm : Game) (s : Nat → Nat × Nat) (fuel : Nat) :
    (refresh_step gm s fuel).enteredBody = refresh_condition gm
    ∧ (gm.quit = true → refresh_step gm s fuel = .stopped gm)
    ∧ (refresh_step gm s fuel).slept =
        (if gm.quit = true then none else some gm.sleep_time) := by
  by_cases hq : gm.quit = true
  · simp [refresh_step, hq, refresh_condition, LoopStep.enteredBody, LoopStep.slept]
  · have hq' : gm.quit = false := by revert hq; cases gm.quit <;> simp
    rw [hq'] at hq ⊢
    refine ⟨?_, by simp, ?_⟩ <;>
      · simp only [refresh_step, hq', Bool.false_eq_true, if_false, refresh_condition]
        cases h : move_snake gm s fuel <;>
          simp [LoopStep.enteredBody, LoopStep.slept]

/-- Closed witness for `refresh_step_quit_only`. -/
theorem refresh_step_quit_only_witness :
    refresh_step { gOverG with quit := true } str0 2 = .stopped { gOverG with quit := true } :=
  (refresh_step_quit_only { gOverG with quit := true } str0 2).2.1 rfl

/-! ### Cell-kind bookkeeping -/

theorem is_empty_eq_true_iff (c : Cell) : c.is_empty = true ↔ c.value = EMPTY := by
  simp [Cell.is_empty]

theorem is_food_eq_true_iff (c : Cell) : c.is_food = true ↔ c.value = FOOD := by
  simp [Cell.is_food]

theorem is_head_eq_true_iff (c : Cell) : c.is_head = true ↔ c.value = HEAD := by
  simp [Cell.is_head]

theorem is_body_eq_true_iff (c : Cell) : c.is_body = true ↔ c.value = BODY := by
  simp [Cell.is_body]

theorem food_not_empty (c : Cell) (h : c.is_food = true) : c.is_empty = false := by
  have hv : c.value = FOOD := (is_food_eq_true_iff c).mp h
  simp only [Cell.is_empty, hv]
  decide

theorem body_not_empty (c : Cell) (h : c.is_body = true) : c.is_empty = false := by
  have hv : c.value = BODY := (is_body_eq_true_iff c).mp h
  simp only [Cell.is_empty, hv]
  decide

theorem body_not_food (c : Cell) (h : c.is_body = true) : c.is_food = false := by
  have hv : c.value = BODY := (is_body_eq_true_iff c).mp h
  simp only [Cell.is_food, hv]
  decide

theorem head_not_empty (c : Cell) (h : c.is_head = true) : c.is_empty = false := by
  have hv : c.value = HEAD := (is_head_eq_true_iff c).mp h
  simp only [Cell.is_empty, hv]
  decide

theorem head_not_food (c : Cell) (h : c.is_head = true) : c.is_food = false := by
  have hv : c.value = HEAD := (is_head_eq_true_iff c).mp h
  simp only [Cell.is_food, hv]
  decide

/-! ### Benign positions: scan steps that neither error, exit nor eat -/

/-- A grid position whose processing by the `move_snake` scan simply
continues to the next position: its cell is empty, is food, or is an
occupied non-head cell that carries a heading and whose destination
cell does not hold food. -/
def benignCell (gm : Game) (p : Nat × Nat) : Prop :=
  (getCell gm.grid p.1 p.2).is_empty = true
  ∨ (getCell gm.grid p.1 p.2).is_food = true
  ∨ ((getCell gm.grid p.1 p.2).is_empty = false
      ∧ (getCell gm.grid p.1 p.2).is_food = false
      ∧ (getCell gm.grid p.1 p.2).is_head = false
      ∧ ∃ mv, (getCell gm.grid p.1 p.2).moving = some mv
        ∧ (getCell gm.grid
            (next_location gm.row_count gm.col_count p.1 p.2 mv).1
            (next_location gm.row_count gm.col_count p.1 p.2 mv).2).is_food = false)

/-- Processing a list of benign positions only changes the accumulated
candidate grid: the scan walks straight through them. -/
theorem scan_benign_steps (gm : Game) (s : Nat → Nat × Nat) (fuel : Nat) :
    ∀ (L rest : List (Nat × Nat)) (N : Grid) (hOpt : Option (Nat × Nat)),
      (∀ p ∈ L, benignCell gm p) →
      ∃ N', move_snake_scan gm s fuel (L ++ rest) N hOpt =
        move_snake_scan gm s fuel rest N' hOpt := by
  intro L
  induction L with
  | nil => intro rest N hOpt _; exact ⟨N, rfl⟩
  | cons p L ih =>
    obtain ⟨i, j⟩ := p
    intro rest N hOpt hben
    have hp := hben (i, j) (List.mem_cons_self _ _)
    have htail : ∀ q ∈ L, benignCell gm q := fun q hq => hben q (List.mem_cons_of_mem _ hq)
    rw [List.cons_append]
    simp only [move_snake_scan]
    rcases hp with he | hf | ⟨he, hf, hnh, mv, hmv, hnf⟩
    · rw [if_pos he]
      exact ih rest N hOpt htail
    · have he : (getCell gm.grid i j).is_empty = false := food_not_empty _ hf
      rw [if_neg (by simp [he]), if_pos hf]
      exact ih rest _ hOpt htail
    · rw [if_neg (by simp [he]), if_neg (by simp [hf])]
      split
      · rename_i hmv2
        rw [hmv] at hmv2
        cases hmv2
      · rename_i mv2 hmv2
        rw [hmv] at hmv2
        injection hmv2 with hmveq
        subst hmveq
        rw [if_neg (by simp [hnf]), if_neg (by simp [hnh])]
        exact ih rest _ hOpt htail

theorem mk_head_is_empty (m : Option Direction) : (Cell.mk HEAD m).is_empty = false := rfl

theorem mk_head_is_food (m : Option Direction) : (Cell.mk HEAD m).is_food = false := rfl

theorem mk_head_is_head (m : Option Direction) : (Cell.mk HEAD m).is_head = true := rfl

theorem mk_body_is_empty (m : Option Direction) : (Cell.mk BODY m).is_empty = false := rfl

theorem mk_body_is_food (m : Option Direction) : (Cell.mk BODY m).is_food = false := rfl

/-- C1 (amended): the food-consumption fast path of `move_snake`.  If the
grid holds exactly one Head cell, at `hp` with heading `d`, whose
`next_location` is a Food cell, and — the amendment — every other
occupied non-food cell carries a heading whose own destination is not a
Food cell, then `move_snake` returns immediately through the fast path:
the old grid is mutated in place (old head position becomes a Body cell
retaining heading `d`, the food position becomes the Head cell with
heading `d`), the score increments by exactly 1, the tick interval is
multiplied by 0.9, the head back-reference moves to the food position,
the new food is placed on a cell that was empty, and every other cell is
unchanged. -/
theorem move_snake_food_fast_path (gm : Game) (s : Nat → Nat × Nat) (fuel : Nat)
    (hp fp q : Nat × Nat) (d : Direction) (g4 g5 : Grid)
    (hwf : gridWF gm.row_count gm.col_count gm.grid)
    (hr : 1 ≤ gm.row_count) (hc : 1 ≤ gm.col_count)
    (hhr : inRange gm.row_count gm.col_count hp)
    (hhead : getCell gm.grid hp.1 hp.2 = { value := HEAD, moving := some d })
    (hfp : fp = next_location gm.row_count gm.col_count hp.1 hp.2 d)
    (hfood : (getCell gm.grid fp.1 fp.2).is_food = true)
    (honehead : ∀ r ∈ scanPositions gm.row_count gm.col_count, r ≠ hp →
      (getCell gm.grid r.1 r.2).is_head = false)
    (hbodies : ∀ r ∈ scanPositions gm.row_count gm.col_count, r ≠ hp →
      (getCell gm.grid r.1 r.2).is_empty = false →
      (getCell gm.grid r.1 r.2).is_food = false →
      ∃ mv, (getCell gm.grid r.1 r.2).moving = some mv ∧
        (getCell gm.grid (next_location gm.row_count gm.col_count r.1 r.2 mv).1
          (next_location gm.row_count gm.col_count r.1 r.2 mv).2).is_food = false)
    (hg4 : g4 = setCellMoving
        (setCellValue (setCellMoving (setCellValue gm.grid hp.1 hp.2 BODY) hp.1 hp.2 (some d))
          fp.1 fp.2 HEAD) fp.1 fp.2 (some d))
    (hgen : generate_food gm.row_count gm.col_count s g4 fuel 0 = some (q, g5)) :
    move_snake gm s fuel = .ate { gm with
        grid := g5, head := fp, score := gm.score + 1, food := q,
        sleep_time := update_sleep_time gm.sleep_time }
    ∧ inRange gm.row_count gm.col_count q
    ∧ (getCell g4 q.1 q.2).is_empty = true
    ∧ g5 = setCellValue g4 q.1 q.2 FOOD
    ∧ getCell g5 hp.1 hp.2 = { value := BODY, moving := some d }
    ∧ getCell g5 fp.1 fp.2 = { value := HEAD, moving := some d }
    ∧ ∀ r ∈ scanPositions gm.row_count gm.col_count,
        r ≠ hp → r ≠ fp → r ≠ q → getCell g5 r.1 r.2 = getCell gm.grid r.1 r.2 := by
  obtain ⟨hi, hj⟩ := hp
  obtain ⟨f1, f2⟩ := fp
  dsimp only at hhead hfp hfood hg4 ⊢
  obtain ⟨hqr, hqe, hq5⟩ :=
    generate_food_some gm.row_count gm.col_count s g4 hr hc fuel 0 q g5 hgen
  -- the head and food positions differ
  have hfr : inRange gm.row_count gm.col_count (f1, f2) := by
    rw [hfp]
    exact next_location_inRange _ _ _ _ d hr hc hhr.1 hhr.2
  have hpfne : (hi, hj) ≠ (f1, f2) := by
    intro hcontra
    injection hcontra with h1 h2
    rw [← h1, ← h2, hhead, mk_head_is_food] at hfood
    cases hfood
  -- the state of the twice-written grid g4
  have hwf2 : gridWF gm.row_count gm.col_count
      (setCellMoving (setCellValue gm.grid hi hj BODY) hi hj (some d)) :=
    gridWF_setCellMoving _ _ _ _ _ _ (gridWF_setCellValue _ _ _ _ _ _ hwf)
  have hg4hp : getCell g4 hi hj = { value := BODY, moving := some d } := by
    rw [hg4, getCell_write_ne _ _ _ _ _ _ _ hpfne,
      getCell_write_self gm.row_count gm.col_count gm.grid hi hj BODY (some d) hwf
        hhr.1 hhr.2]
  have hg4fp : getCell g4 f1 f2 = { value := HEAD, moving := some d } := by
    rw [hg4,
      getCell_write_self gm.row_count gm.col_count _ f1 f2 HEAD (some d) hwf2 hfr.1 hfr.2]
  have hqhp : q ≠ (hi, hj) := by
    intro hcontra
    rw [hcontra] at hqe
    rw [hg4hp] at hqe
    cases hqe
  have hqfp : q ≠ (f1, f2) := by
    intro hcontra
    rw [hcontra] at hqe
    rw [hg4fp] at hqe
    cases hqe
  obtain ⟨q1, q2⟩ := q
  -- split the scan at the head position
  have hmem : (hi, hj) ∈ scanPositions gm.row_count gm.col_count :=
    (mem_scanPositions _ _ _).mpr hhr
  obtain ⟨L1, L2, hsplit⟩ := List.append_of_mem hmem
  have hnotin : (hi, hj) ∉ L1 := by
    have hnd := scanPositions_nodup gm.row_count gm.col_count
    rw [hsplit] at hnd
    obtain ⟨-, -, hdisj⟩ := List.nodup_append.mp hnd
    exact fun hin => hdisj hin (List.mem_cons_self _ _)
  have hben : ∀ p ∈ L1, benignCell gm p := by
    intro p hpL1
    have hpscan : p ∈ scanPositions gm.row_count gm.col_count := by
      rw [hsplit]
      exact List.mem_append.mpr (Or.inl hpL1)
    have hpne : p ≠ (hi, hj) := fun hcontra => hnotin (hcontra ▸ hpL1)
    by_cases he : (getCell gm.grid p.1 p.2).is_empty = true
    · exact Or.inl he
    · by_cases hf : (getCell gm.grid p.1 p.2).is_food = true
      · exact Or.inr (Or.inl hf)
      · have he' : (getCell gm.grid p.1 p.2).is_empty = false := by
          revert he; cases (getCell gm.grid p.1 p.2).is_empty <;> simp
        have hf' : (getCell gm.grid p.1 p.2).is_food = false := by
          revert hf; cases (getCell gm.grid p.1 p.2).is_food <;> simp
        obtain ⟨mv, hmv, hnf⟩ := hbodies p hpscan hpne he' hf'
        exact Or.inr (Or.inr ⟨he', hf', honehead p hpscan hpne, mv, hmv, hnf⟩)
  have hmain : move_snake gm s fuel = .ate { gm with
      grid := g5, head := (f1, f2), score := gm.score + 1, food := (q1, q2),
      sleep_time := update_sleep_time gm.sleep_time } := by
    rw [move_snake, hsplit]
    obtain ⟨N', hN'⟩ := scan_benign_steps gm s fuel L1 ((hi, hj) :: L2)
      (emptyGrid gm.row_count gm.col_count) none hben
    rw [hN']
    simp only [move_snake_scan]
    rw [hhead]
    simp only [mk_head_is_empty, mk_head_is_food, mk_head_is_head, Bool.false_eq_true,
      if_false]
    rw [← hfp]
    simp only [if_pos hfood, if_true]
    rw [← hg4, hgen]
  refine ⟨hmain, hqr, hqe, hq5, ?_, ?_, ?_⟩
  · rw [hq5, getCell_setCellValue_ne _ _ _ _ _ _ (Ne.symm hqhp), hg4hp]
  · rw [hq5, getCell_setCellValue_ne _ _ _ _ _ _ (Ne.symm hqfp), hg4fp]
  · rintro ⟨r1, r2⟩ hrscan hrhp hrfp hrq
    rw [hq5, getCell_setCellValue_ne _ _ _ _ _ _ hrq, hg4,
      getCell_write_ne _ _ _ _ _ _ _ hrfp, getCell_write_ne _ _ _ _ _ _ _ hrhp]

/-- A 2×2 game refuting C1 as stated: exactly one Head, at (1,1) heading
left onto the Food at (1,0), but the Body cell at (0,0) also steps onto
the Food and is scanned first, so the `assert cell.is_head()` fires and
the fast path is never reached. -/
def gmC1bad : Game :=
  { row_count := 2, col_count := 2
    grid := [[{ value := BODY, moving := some .down }, {}],
             [{ value := FOOD }, { value := HEAD, moving := some .left }]]
    head := (1, 1), sleep_time := 1, food := (1, 0)
    score := 0, game_over := false, quit := false }

/-- C1 counterexample: a state satisfying every hypothesis of the claim
(one Head whose `next_location` is the Food cell) on which `move_snake`
aborts with the fast-path assertion instead of eating: no score
increment, no in-place mutation, no early return with a new food. -/
theorem move_snake_fast_path_needs_assumption :
    getCell gmC1bad.grid 1 1 = { value := HEAD, moving := some Direction.left }
    ∧ (∀ r ∈ scanPositions 2 2, r ≠ (1, 1) → (getCell gmC1bad.grid r.1 r.2).is_head = false)
    ∧ next_location 2 2 1 1 .left = (1, 0)
    ∧ (getCell gmC1bad.grid 1 0).is_food = true
    ∧ move_snake gmC1bad str0 4 = .errFoodBody := by
  refine ⟨rfl, by decide, by decide, rfl, by decide⟩

/-- A 3×3 game with a lone head at (1,1) heading right onto the food at
(1,2): the fast-path witness state. -/
def gmC1good : Game :=
  { row_count := 3, col_count := 3
    grid := [[{}, {}, {}],
             [{}, { value := HEAD, moving := some .right }, { value := FOOD }],
             [{}, {}, {}]]
    head := (1, 1), sleep_time := 1, food := (1, 2)
    score := 0, game_over := false, quit := false }

/-- The in-place-mutated grid of `gmC1good` after the fast path's four
cell writes. -/
def g4c : Grid :=
  setCellMoving
    (setCellValue (setCellMoving (setCellValue gmC1good.grid 1 1 BODY) 1 1 (some .right))
      1 2 HEAD) 1 2 (some .right)

/-- `g4c` with the regenerated food written at (0,0). -/
def g5c : Grid := setCellValue g4c 0 0 FOOD

/-- Closed witness for `move_snake_food_fast_path`. -/
theorem move_snake_food_fast_path_witness :
    move_snake gmC1good str0 3 = .ate { gmC1good with
        grid := g5c, head := (1, 2), score := gmC1good.score + 1, food := (0, 0),
        sleep_time := update_sleep_time gmC1good.sleep_time } :=
  (move_snake_food_fast_path gmC1good str0 3 (1, 1) (1, 2) (0, 0) .right g4c g5c
    (by decide) (by decide) (by decide) (by decide) rfl (by decide) rfl
    (by decide) (by decide) rfl (by decide)).1

/-- The shared collision core: with one Head at `hp` heading `d` whose
destination `fp` holds a Body cell, and every other occupied non-food
cell benign, `move_snake` sets `game_over` and exits without committing
any grid. -/
theorem move_snake_collision_core (gm : Game) (s : Nat → Nat × Nat) (fuel : Nat)
    (hp fp : Nat × Nat) (d : Direction)
    (hhr : inRange gm.row_count gm.col_count hp)
    (hhead : getCell gm.grid hp.1 hp.2 = { value := HEAD, moving := some d })
    (hfp : fp = next_location gm.row_count gm.col_count hp.1 hp.2 d)
    (hdest : (getCell gm.grid fp.1 fp.2).is_body = true)
    (honehead : ∀ r ∈ scanPositions gm.row_count gm.col_count, r ≠ hp →
      (getCell gm.grid r.1 r.2).is_head = false)
    (hbodies : ∀ r ∈ scanPositions gm.row_count gm.col_count, r ≠ hp →
      (getCell gm.grid r.1 r.2).is_empty = false →
      (getCell gm.grid r.1 r.2).is_food = false →
      ∃ mv, (getCell gm.grid r.1 r.2).moving = some mv ∧
        (getCell gm.grid (next_location gm.row_count gm.col_count r.1 r.2 mv).1
          (next_location gm.row_count gm.col_count r.1 r.2 mv).2).is_food = false) :
    move_snake gm s fuel = .exit { gm with game_over := true } := by
  obtain ⟨hi, hj⟩ := hp
  obtain ⟨f1, f2⟩ := fp
  dsimp only at hhead hfp hdest ⊢
  have hmem : (hi, hj) ∈ scanPositions gm.row_count gm.col_count :=
    (mem_scanPositions _ _ _).mpr hhr
  obtain ⟨L1, L2, hsplit⟩ := List.append_of_mem hmem
  have hnotin : (hi, hj) ∉ L1 := by
    have hnd := scanPositions_nodup gm.row_count gm.col_count
    rw [hsplit] at hnd
    obtain ⟨-, -, hdisj⟩ := List.nodup_append.mp hnd
    exact fun hin => hdisj hin (List.mem_cons_self _ _)
  have hben : ∀ p ∈ L1, benignCell gm p := by
    intro p hpL1
    have hpscan : p ∈ scanPositions gm.row_count gm.col_count := by
      rw [hsplit]
      exact List.mem_append.mpr (Or.inl hpL1)
    have hpne : p ≠ (hi, hj) := fun hcontra => hnotin (hcontra ▸ hpL1)
    by_cases he : (getCell gm.grid p.1 p.2).is_empty = true
    · exact Or.inl he
    · by_cases hf : (getCell gm.grid p.1 p.2).is_food = true
      · exact Or.inr (Or.inl hf)
      · have he' : (getCell gm.grid p.1 p.2).is_empty = false := by
          revert he; cases (getCell gm.grid p.1 p.2).is_empty <;> simp
        have hf' : (getCell gm.grid p.1 p.2).is_food = false := by
          revert hf; cases (getCell gm.grid p.1 p.2).is_food <;> simp
        obtain ⟨mv, hmv, hnf⟩ := hbodies p hpscan hpne he' hf'
        exact Or.inr (Or.inr ⟨he', hf', honehead p hpscan hpne, mv, hmv, hnf⟩)
  rw [move_snake, hsplit]
  obtain ⟨N', hN'⟩ := scan_benign_steps gm s fuel L1 ((hi, hj) :: L2)
    (emptyGrid gm.row_count gm.col_count) none hben
  rw [hN']
  simp only [move_snake_scan]
  rw [hhead]
  simp only [mk_head_is_empty, mk_head_is_food, mk_head_is_head, Bool.false_eq_true,
    if_false]
  rw [← hfp]
  have hnf : (getCell gm.grid f1 f2).is_food = false := body_not_food _ hdest
  rw [if_neg (by rw [hnf]; exact Bool.false_ne_true)]
  rw [if_pos trivial]
  dsimp only
  rw [if_pos hdest]

/-- C2 (amended): self-collision.  If the Head's destination in the
current grid holds a Body cell — and, the amendment, every other
occupied non-food cell carries a heading whose destination is not a
Food cell, so that no assertion fires first — then `move_snake` sets
`gameOver` and exits before committing anything: grid, head reference,
score, food and tick interval are all left unchanged; from the
resulting state every further `move_snake` call exits again with no
grid mutation, and the input loop's condition turns false. -/
theorem move_snake_self_collision (gm : Game) (s : Nat → Nat × Nat) (fuel : Nat)
    (hp fp : Nat × Nat) (d : Direction)
    (hhr : inRange gm.row_count gm.col_count hp)
    (hhead : getCell gm.grid hp.1 hp.2 = { value := HEAD, moving := some d })
    (hfp : fp = next_location gm.row_count gm.col_count hp.1 hp.2 d)
    (hdest : (getCell gm.grid fp.1 fp.2).is_body = true)
    (honehead : ∀ r ∈ scanPositions gm.row_count gm.col_count, r ≠ hp →
      (getCell gm.grid r.1 r.2).is_head = false)
    (hbodies : ∀ r ∈ scanPositions gm.row_count gm.col_count, r ≠ hp →
      (getCell gm.grid r.1 r.2).is_empty = false →
      (getCell gm.grid r.1 r.2).is_food = false →
      ∃ mv, (getCell gm.grid r.1 r.2).moving = some mv ∧
        (getCell gm.grid (next_location gm.row_count gm.col_count r.1 r.2 mv).1
          (next_location gm.row_count gm.col_count r.1 r.2 mv).2).is_food = false) :
    move_snake gm s fuel = .exit { gm with game_over := true }
    ∧ (∀ (s2 : Nat → Nat × Nat) (fuel2 : Nat),
        move_snake { gm with game_over := true } s2 fuel2
          = .exit { gm with game_over := true })
    ∧ take_input_condition { gm with game_over := true } = false := by
  refine ⟨move_snake_collision_core gm s fuel hp fp d hhr hhead hfp hdest honehead hbodies,
    fun s2 fuel2 => ?_, rfl⟩
  exact move_snake_collision_core { gm with game_over := true } s2 fuel2 hp fp d
    hhr hhead hfp hdest honehead hbodies

/-- A 2×2 game refuting C2 as stated: the Head at (1,1) heads up onto
the Body at (0,1), but the Body at (0,0) steps onto the Food at (1,0)
and is scanned first, so the process aborts on the fast-path assertion
and `game_over` is never set. -/
def gmC2bad : Game :=
  { row_count := 2, col_count := 2
    grid := [[{ value := BODY, moving := some .down }, { value := BODY, moving := some .down }],
             [{ value := FOOD }, { value := HEAD, moving := some .up }]]
    head := (1, 1), sleep_time := 1, food := (1, 0)
    score := 0, game_over := false, quit := false }

/-- C2 counterexample: the Head's destination holds a Body cell, yet
`move_snake` terminates with an assertion failure rather than setting
`gameOver`. -/
theorem move_snake_collision_needs_assumption :
    getCell gmC2bad.grid 1 1 = { value := HEAD, moving := some Direction.up }
    ∧ next_location 2 2 1 1 .up = (0, 1)
    ∧ (getCell gmC2bad.grid 0 1).is_body = true
    ∧ move_snake gmC2bad str0 4 = .errFoodBody
    ∧ gmC2bad.game_over = false := by
  refine ⟨rfl, by decide, rfl, by decide, rfl⟩

/-- A 3×3 game whose head at (1,1) heads right into the body at (1,2). -/
def gmC2w : Game :=
  { row_count := 3, col_count := 3
    grid := [[{}, {}, {}],
             [{}, { value := HEAD, moving := some .right },
              { value := BODY, moving := some .up }],
             [{}, {}, {}]]
    head := (1, 1), sleep_time := 1, food := (0, 0)
    score := 0, game_over := false, quit := false }

/-- Closed witness for `move_snake_self_collision`. -/
theorem move_snake_self_collision_witness :
    move_snake gmC2w str0 2 = .exit { gmC2w with game_over := true } :=
  (move_snake_self_collision gmC2w str0 2 (1, 1) (1, 2) .right
    (by decide) rfl (by decide) rfl (by decide) (by decide)).1

/-! ### Snake configurations: the valid-state invariant of the spec -/

/-- First body segment (if any) recorded at position `p`. -/
def lookupBody : List ((Nat × Nat) × Direction) → (Nat × Nat) → Option Direction
  | [], _ => none
  | (q, dq) :: rest, p => if p = q then some dq else lookupBody rest p

/-- The cell a grid holds at `p` when it consists of exactly one Head at
`hp` with heading `hd`, Body segments `bodies`, one Food at `fp`, and
Empty cells elsewhere. -/
def stateCell (hp : Nat × Nat) (hd : Direction) (bodies : List ((Nat × Nat) × Direction))
    (fp : Nat × Nat) (p : Nat × Nat) : Cell :=
  if p = hp then { value := HEAD, moving := some hd }
  else
    match lookupBody bodies p with
    | some dq => { value := BODY, moving := some dq }
    | none => if p = fp then { value := FOOD, moving := none } else {}

/-- The follow-the-leader chain condition: each body segment's
`next_location` is the position of the segment in front of it (the
head for the first body segment). -/
def chainB (rows cols : Nat) : (Nat × Nat) → List ((Nat × Nat) × Direction) → Bool
  | _, [] => true
  | prev, (p, dq) :: rest =>
    decide (next_location rows cols p.1 p.2 dq = prev) && chainB rows cols p rest

/-- The spec's valid-state invariant: well-formed dims, one Head at
`gm.head` with heading `hd`, body segments `bodies` forming a simple
follow-the-leader chain, one Food at `gm.food` disjoint from the snake,
everything else Empty. -/
def validState (gm : Game) (hd : Direction) (bodies : List ((Nat × Nat) × Direction)) :
    Prop :=
  gridWF gm.row_count gm.col_count gm.grid
  ∧ 1 ≤ gm.row_count ∧ 1 ≤ gm.col_count
  ∧ inRange gm.row_count gm.col_count gm.head
  ∧ inRange gm.row_count gm.col_count gm.food
  ∧ (∀ b ∈ bodies, inRange gm.row_count gm.col_count b.1)
  ∧ (gm.head :: bodies.map Prod.fst).Nodup
  ∧ gm.food ∉ gm.head :: bodies.map Prod.fst
  ∧ chainB gm.row_count gm.col_count gm.head bodies = true
  ∧ ∀ p ∈ scanPositions gm.row_count gm.col_count,
      getCell gm.grid p.1 p.2 = stateCell gm.head hd bodies gm.food p

instance (gm : Game) (hd : Direction) (bodies : List ((Nat × Nat) × Direction)) :
    Decidable (validState gm hd bodies) := by
  unfold validState; infer_instance

/-! #### Lookup lemmas -/

theorem lookupBody_eq_some_mem (l : List ((Nat × Nat) × Direction)) (p : Nat × Nat)
    (dq : Direction) (h : lookupBody l p = some dq) : (p, dq) ∈ l := by
  induction l with
  | nil => cases h
  | cons b rest ih =>
    obtain ⟨q, dq'⟩ := b
    simp only [lookupBody] at h
    by_cases hpq : p = q
    · rw [if_pos hpq] at h
      injection h with h
      subst hpq
      subst h
      exact List.mem_cons_self _ _
    · rw [if_neg hpq] at h
      exact List.mem_cons_of_mem _ (ih h)

theorem lookupBody_eq_none_iff (l : List ((Nat × Nat) × Direction)) (p : Nat × Nat) :
    lookupBody l p = none ↔ p ∉ l.map Prod.fst := by
  induction l with
  | nil => simp [lookupBody]
  | cons b rest ih =>
    obtain ⟨q, dq'⟩ := b
    simp only [lookupBody, List.map_cons, List.mem_cons]
    by_cases hpq : p = q
    · simp [hpq]
    · simp only [if_neg hpq, ih]
      constructor
      · intro h hor
        rcases hor with h1 | h1
        · exact hpq h1
        · exact h h1
      · intro h h1
        exact h (Or.inr h1)

theorem mem_lookupBody (l : List ((Nat × Nat) × Direction)) (p : Nat × Nat) (dq : Direction)
    (hnd : (l.map Prod.fst).Nodup) (h : (p, dq) ∈ l) : lookupBody l p = some dq := by
  induction l with
  | nil => cases h
  | cons b rest ih =>
    obtain ⟨q, dq'⟩ := b
    rw [List.map_cons, List.nodup_cons] at hnd
    rcases List.mem_cons.mp h with h1 | h1
    · injection h1 with h1a h1b
      simp [lookupBody, h1a, h1b]
    · have hmem : p ∈ rest.map Prod.fst := List.mem_map_of_mem Prod.fst h1
      have hpq : p ≠ q := fun hpq => hnd.1 (hpq ▸ hmem)
      simp only [lookupBody, if_neg hpq]
      exact ih hnd.2 h1

theorem lookupBody_prefix (l1 l2 : List ((Nat × Nat) × Direction)) (p : Nat × Nat)
    (dq : Direction) (h : lookupBody l1 p = some dq) :
    lookupBody (l1 ++ l2) p = some dq := by
  induction l1 with
  | nil => cases h
  | cons b rest ih =>
    obtain ⟨q, dq'⟩ := b
    simp only [lookupBody] at h ⊢
    by_cases hpq : p = q
    · rwa [if_pos hpq] at h ⊢
    · rw [if_neg hpq] at h ⊢
      exact ih h

/-! #### The chain fixes all body destinations -/

theorem dropLast_cons_cons {α : Type _} (a b : α) (l : List α) :
    (a :: b :: l).dropLast = a :: (b :: l).dropLast := rfl

theorem chainB_targets (rows cols : Nat) :
    ∀ (bodies : List ((Nat × Nat) × Direction)) (prev : Nat × Nat),
      chainB rows cols prev bodies = true →
      bodies.map (fun b => next_location rows cols b.1.1 b.1.2 b.2)
        = (prev :: bodies.map Prod.fst).dropLast := by
  intro bodies
  induction bodies with
  | nil => intro prev _; rfl
  | cons b rest ih =>
    obtain ⟨p, dq⟩ := b
    intro prev hch
    simp only [chainB, Bool.and_eq_true, decide_eq_true_eq] at hch
    obtain ⟨hnext, hrest⟩ := hch
    simp only [List.map_cons]
    rw [ih p hrest, hnext, dropLast_cons_cons]

theorem mk_empty_is_empty (m : Option Direction) : (Cell.mk EMPTY m).is_empty = true := rfl

theorem mk_empty_is_food (m : Option Direction) : (Cell.mk EMPTY m).is_food = false := rfl

theorem mk_empty_is_body (m : Option Direction) : (Cell.mk EMPTY m).is_body = false := rfl

theorem mk_food_is_empty (m : Option Direction) : (Cell.mk FOOD m).is_empty = false := rfl

theorem mk_food_is_food (m : Option Direction) : (Cell.mk FOOD m).is_food = true := rfl

theorem mk_food_is_head (m : Option Direction) : (Cell.mk FOOD m).is_head = false := rfl

theorem mk_food_is_body (m : Option Direction) : (Cell.mk FOOD m).is_body = false := rfl

theorem mk_body_is_head (m : Option Direction) : (Cell.mk BODY m).is_head = false := rfl

theorem mk_body_is_body (m : Option Direction) : (Cell.mk BODY m).is_body = true := rfl

theorem mk_head_is_body (m : Option Direction) : (Cell.mk HEAD m).is_body = false := rfl

theorem empty_cell_is_empty : (Cell.mk EMPTY none).is_empty = true := rfl

/-- The cell the head steps onto. -/
def headTarget (gm : Game) (hd : Direction) : Nat × Nat :=
  next_location gm.row_count gm.col_count gm.head.1 gm.head.2 hd

/-- The single write into the candidate grid performed while scanning
position `p` on the normal path of `move_snake`. -/
def scanWrite (gm : Game) (N : Grid) (p : Nat × Nat) : Grid :=
  let cell := getCell gm.grid p.1 p.2
  if cell.is_empty then N
  else if cell.is_food then setCellValue N p.1 p.2 FOOD
  else
    match cell.moving with
    | none => N
    | some mv =>
      let nl := next_location gm.row_count gm.col_count p.1 p.2 mv
      if cell.is_head then
        setCellMoving (setCellValue N nl.1 nl.2 cell.value) nl.1 nl.2 (some mv)
      else
        setCellMoving (setCellValue N nl.1 nl.2 cell.value) nl.1 nl.2
          (getCell gm.grid nl.1 nl.2).moving

/-- The candidate-grid position written while scanning `p`, for a grid
in `stateCell` form. -/
def writeTarget (gm : Game) (hd : Direction) (bodies : List ((Nat × Nat) × Direction))
    (p : Nat × Nat) : Option (Nat × Nat) :=
  if p = gm.head then some (next_location gm.row_count gm.col_count p.1 p.2 hd)
  else
    match lookupBody bodies p with
    | some dq => some (next_location gm.row_count gm.col_count p.1 p.2 dq)
    | none => if p = gm.food then some p else none

/-- The content deposited at `writeTarget p`, where `c` is the content
the candidate grid previously held there (food copies only the value). -/
def writeCell (gm : Game) (hd : Direction) (bodies : List ((Nat × Nat) × Direction))
    (p : Nat × Nat) (c : Cell) : Cell :=
  if p = gm.head then { value := HEAD, moving := some hd }
  else
    match lookupBody bodies p with
    | some dq => { value := BODY, moving :=
        (getCell gm.grid (next_location gm.row_count gm.col_count p.1 p.2 dq).1
          (next_location gm.row_count gm.col_count p.1 p.2 dq).2).moving }
    | none => if p = gm.food then { c with value := FOOD } else c

/-- Every body segment's destination is a snake position. -/
theorem body_target_mem (gm : Game) (hd : Direction)
    (bodies : List ((Nat × Nat) × Direction))
    (hch : chainB gm.row_count gm.col_count gm.head bodies = true)
    (p : Nat × Nat) (dq : Direction) (h : (p, dq) ∈ bodies) :
    next_location gm.row_count gm.col_count p.1 p.2 dq
      ∈ gm.head :: bodies.map Prod.fst := by
  have h1 : next_location gm.row_count gm.col_count p.1 p.2 dq
      ∈ bodies.map (fun b => next_location gm.row_count gm.col_count b.1.1 b.1.2 b.2) :=
    List.mem_map_of_mem _ h
  rw [chainB_targets gm.row_count gm.col_count bodies gm.head hch] at h1
  exact (List.dropLast_sublist _).subset h1

/-- A snake position never holds a food cell in a `stateCell` grid. -/
theorem snake_not_food (gm : Game) (hd : Direction)
    (bodies : List ((Nat × Nat) × Direction))
    (hnd : (gm.head :: bodies.map Prod.fst).Nodup)
    (r : Nat × Nat) (h : r ∈ gm.head :: bodies.map Prod.fst) :
    (stateCell gm.head hd bodies gm.food r).is_food = false := by
  rw [List.nodup_cons] at hnd
  rcases List.mem_cons.mp h with h1 | h1
  · rw [stateCell, if_pos h1]
    exact mk_head_is_food _
  · obtain ⟨⟨q, dq⟩, hmem, hq⟩ := List.mem_map.mp h1
    have hrh : r ≠ gm.head := by
      rintro rfl
      exact hnd.1 (hq ▸ h1)
    rw [stateCell, if_neg hrh, ← hq, mem_lookupBody bodies q dq hnd.2 hmem]
    exact mk_body_is_food _

/-- Classification of a scan source by the kind of write it performs. -/
theorem writeTarget_class (gm : Game) (hd : Direction)
    (bodies : List ((Nat × Nat) × Direction))
    (x r : Nat × Nat) (hx : writeTarget gm hd bodies x = some r) :
    (x = gm.head ∧ r = headTarget gm hd)
    ∨ (∃ dq, (x, dq) ∈ bodies ∧ lookupBody bodies x = some dq
        ∧ r = next_location gm.row_count gm.col_count x.1 x.2 dq)
    ∨ (x = gm.food ∧ r = gm.food) := by
  rw [writeTarget] at hx
  by_cases hxh : x = gm.head
  · rw [if_pos hxh] at hx
    injection hx with hx
    subst hxh
    exact Or.inl ⟨rfl, hx.symm⟩
  · rw [if_neg hxh] at hx
    cases hlb : lookupBody bodies x with
    | some dq =>
      rw [hlb] at hx
      injection hx with hx
      exact Or.inr (Or.inl ⟨dq, lookupBody_eq_some_mem _ _ _ hlb, rfl, hx.symm⟩)
    | none =>
      rw [hlb] at hx
      by_cases hxf : x = gm.food
      · rw [if_pos hxf] at hx
        injection hx with hx
        exact Or.inr (Or.inr ⟨hxf, hxf ▸ hx.symm⟩)
      · rw [if_neg hxf] at hx
        cases hx

/-- A snake position never holds a body cell's hypothesised target:
the head target is not a snake position, hence distinct from every
body target (injectivity of `writeTarget`). -/
theorem writeTarget_inj (gm : Game) (hd : Direction)
    (bodies : List ((Nat × Nat) × Direction))
    (hnd : (gm.head :: bodies.map Prod.fst).Nodup)
    (hfm : gm.food ∉ gm.head :: bodies.map Prod.fst)
    (hch : chainB gm.row_count gm.col_count gm.head bodies = true)
    (hnp : headTarget gm hd ∉ gm.head :: bodies.map Prod.fst)
    (hnf : headTarget gm hd ≠ gm.food)
    (p p' r : Nat × Nat)
    (h : writeTarget gm hd bodies p = some r)
    (h' : writeTarget gm hd bodies p' = some r) : p = p' := by
  have hmapnd : (bodies.map
      (fun b => next_location gm.row_count gm.col_count b.1.1 b.1.2 b.2)).Nodup := by
    rw [chainB_targets gm.row_count gm.col_count bodies gm.head hch]
    exact (List.dropLast_sublist _).nodup hnd
  have hsnake : ∀ (x : Nat × Nat) (dq : Direction), (x, dq) ∈ bodies →
      next_location gm.row_count gm.col_count x.1 x.2 dq
        ∈ gm.head :: bodies.map Prod.fst :=
    fun x dq hm => body_target_mem gm hd bodies hch x dq hm
  rcases writeTarget_class gm hd bodies p r h with
      ⟨hp1, hr1⟩ | ⟨dq, hmem, hlb, hr1⟩ | ⟨hp1, hr1⟩ <;>
    rcases writeTarget_class gm hd bodies p' r h' with
      ⟨hp2, hr2⟩ | ⟨dq', hmem', hlb', hr2⟩ | ⟨hp2, hr2⟩
  · rw [hp1, hp2]
  · have hrs2 : r ∈ gm.head :: bodies.map Prod.fst := by
      rw [hr2]; exact hsnake p' dq' hmem'
    exact absurd (hr1 ▸ hrs2) hnp
  · exact absurd (hr1.symm.trans hr2) hnf
  · have hrs1 : r ∈ gm.head :: bodies.map Prod.fst := by
      rw [hr1]; exact hsnake p dq hmem
    exact absurd (hr2 ▸ hrs1) hnp
  · have := List.inj_on_of_nodup_map hmapnd hmem hmem'
      (by
        show next_location gm.row_count gm.col_count p.1 p.2 dq
          = next_location gm.row_count gm.col_count p'.1 p'.2 dq'
        rw [← hr1, ← hr2])
    exact congrArg Prod.fst this
  · have hrs1 : r ∈ gm.head :: bodies.map Prod.fst := by
      rw [hr1]; exact hsnake p dq hmem
    exact absurd (hr2 ▸ hrs1) hfm
  · exact absurd (hr2.symm.trans hr1) hnf
  · have hrs2 : r ∈ gm.head :: bodies.map Prod.fst := by
      rw [hr2]; exact hsnake p' dq' hmem'
    exact absurd (hr1 ▸ hrs2) hfm
  · rw [hp1, hp2]

/-! #### Reductions of `scanWrite` and of one scan step, by cell kind -/

theorem scanWrite_head_eq (gm : Game) (N : Grid) (i j : Nat) (hd : Direction)
    (hcell : getCell gm.grid i j = { value := HEAD, moving := some hd }) :
    scanWrite gm N (i, j) = setCellMoving
      (setCellValue N (next_location gm.row_count gm.col_count i j hd).1
        (next_location gm.row_count gm.col_count i j hd).2 HEAD)
      (next_location gm.row_count gm.col_count i j hd).1
      (next_location gm.row_count gm.col_count i j hd).2 (some hd) := by
  simp only [scanWrite]
  rw [hcell]
  simp [mk_head_is_empty, mk_head_is_food, mk_head_is_head]

theorem scanWrite_body_eq (gm : Game) (N : Grid) (i j : Nat) (dq : Direction)
    (hcell : getCell gm.grid i j = { value := BODY, moving := some dq }) :
    scanWrite gm N (i, j) = setCellMoving
      (setCellValue N (next_location gm.row_count gm.col_count i j dq).1
        (next_location gm.row_count gm.col_count i j dq).2 BODY)
      (next_location gm.row_count gm.col_count i j dq).1
      (next_location gm.row_count gm.col_count i j dq).2
      (getCell gm.grid (next_location gm.row_count gm.col_count i j dq).1
        (next_location gm.row_count gm.col_count i j dq).2).moving := by
  simp only [scanWrite]
  rw [hcell]
  simp [mk_body_is_empty, mk_body_is_food, mk_body_is_head]

theorem scanWrite_food_eq (gm : Game) (N : Grid) (i j : Nat)
    (hcell : getCell gm.grid i j = { value := FOOD, moving := none }) :
    scanWrite gm N (i, j) = setCellValue N i j FOOD := by
  simp only [scanWrite]
  rw [hcell]
  simp [mk_food_is_empty, mk_food_is_food]

theorem scanWrite_empty_eq (gm : Game) (N : Grid) (i j : Nat)
    (hcell : getCell gm.grid i j = { value := EMPTY, moving := none }) :
    scanWrite gm N (i, j) = N := by
  simp only [scanWrite]
  rw [hcell]
  simp [mk_empty_is_empty]

theorem scan_step_head (gm : Game) (s : Nat → Nat × Nat) (fuel : Nat) (i j : Nat)
    (hd : Direction) (L : List (Nat × Nat)) (N : Grid) (hOpt : Option (Nat × Nat))
    (hcell : getCell gm.grid i j = { value := HEAD, moving := some hd })
    (hdest : getCell gm.grid (next_location gm.row_count gm.col_count i j hd).1
        (next_location gm.row_count gm.col_count i j hd).2
        = { value := EMPTY, moving := none }) :
    move_snake_scan gm s fuel ((i, j) :: L) N hOpt =
      move_snake_scan gm s fuel L
        (setCellMoving
          (setCellValue N (next_location gm.row_count gm.col_count i j hd).1
            (next_location gm.row_count gm.col_count i j hd).2 HEAD)
          (next_location gm.row_count gm.col_count i j hd).1
          (next_location gm.row_count gm.col_count i j hd).2 (some hd))
        (some (next_location gm.row_count gm.col_count i j hd)) := by
  simp only [move_snake_scan]
  rw [hcell]
  simp only [mk_head_is_empty, mk_head_is_food, mk_head_is_head, Bool.false_eq_true,
    if_false]
  rw [hdest]
  simp [mk_empty_is_food, mk_empty_is_body]

theorem scan_step_body (gm : Game) (s : Nat → Nat × Nat) (fuel : Nat) (i j : Nat)
    (dq : Direction) (L : List (Nat × Nat)) (N : Grid) (hOpt : Option (Nat × Nat))
    (hcell : getCell gm.grid i j = { value := BODY, moving := some dq })
    (hdest : (getCell gm.grid (next_location gm.row_count gm.col_count i j dq).1
        (next_location gm.row_count gm.col_count i j dq).2).is_food = false) :
    move_snake_scan gm s fuel ((i, j) :: L) N hOpt =
      move_snake_scan gm s fuel L
        (setCellMoving
          (setCellValue N (next_location gm.row_count gm.col_count i j dq).1
            (next_location gm.row_count gm.col_count i j dq).2 BODY)
          (next_location gm.row_count gm.col_count i j dq).1
          (next_location gm.row_count gm.col_count i j dq).2
          (getCell gm.grid (next_location gm.row_count gm.col_count i j dq).1
            (next_location gm.row_count gm.col_count i j dq).2).moving)
        hOpt := by
  simp only [move_snake_scan]
  rw [hcell]
  simp only [mk_body_is_empty, mk_body_is_food, mk_body_is_head, Bool.false_eq_true,
    if_false]
  rw [if_neg (by rw [hdest]; exact Bool.false_ne_true)]

theorem scan_step_food (gm : Game) (s : Nat → Nat × Nat) (fuel : Nat) (i j : Nat)
    (L : List (Nat × Nat)) (N : Grid) (hOpt : Option (Nat × Nat))
    (hcell : getCell gm.grid i j = { value := FOOD, moving := none }) :
    move_snake_scan gm s fuel ((i, j) :: L) N hOpt =
      move_snake_scan gm s fuel L (setCellValue N i j FOOD) hOpt := by
  simp only [move_snake_scan]
  rw [hcell]
  simp [mk_food_is_empty, mk_food_is_food]

theorem scan_step_empty (gm : Game) (s : Nat → Nat × Nat) (fuel : Nat) (i j : Nat)
    (L : List (Nat × Nat)) (N : Grid) (hOpt : Option (Nat × Nat))
    (hcell : getCell gm.grid i j = { value := EMPTY, moving := none }) :
    move_snake_scan gm s fuel ((i, j) :: L) N hOpt =
      move_snake_scan gm s fuel L N hOpt := by
  simp only [move_snake_scan]
  rw [hcell]
  simp [mk_empty_is_empty]

theorem gridWF_scanWrite (gm : Game) (N : Grid) (p : Nat × Nat)
    (hwfN : gridWF gm.row_count gm.col_count N) :
    gridWF gm.row_count gm.col_count (scanWrite gm N p) := by
  simp only [scanWrite]
  split
  · exact hwfN
  · split
    · exact gridWF_setCellValue _ _ _ _ _ _ hwfN
    · split
      · exact hwfN
      · split
        · exact gridWF_setCellMoving _ _ _ _ _ _ (gridWF_setCellValue _ _ _ _ _ _ hwfN)
        · exact gridWF_setCellMoving _ _ _ _ _ _ (gridWF_setCellValue _ _ _ _ _ _ hwfN)

/-- Pointwise effect of one scan write on the candidate grid. -/
theorem getCell_scanWrite (gm : Game) (hd : Direction)
    (bodies : List ((Nat × Nat) × Direction)) (hv : validState gm hd bodies)
    (i j : Nat) (hpR : inRange gm.row_count gm.col_count (i, j))
    (N : Grid) (hwfN : gridWF gm.row_count gm.col_count N) (r : Nat × Nat) :
    getCell (scanWrite gm N (i, j)) r.1 r.2 =
      if writeTarget gm hd bodies (i, j) = some r
      then writeCell gm hd bodies (i, j) (getCell N r.1 r.2)
      else getCell N r.1 r.2 := by
  obtain ⟨hwf, hr, hc, hhr, hfr, hbr, hnd, hfm, hch, hgrid⟩ := hv
  have hcell := hgrid (i, j) ((mem_scanPositions _ _ _).mpr hpR)
  obtain ⟨r1, r2⟩ := r
  by_cases hph : (i, j) = gm.head
  · have hcellH : getCell gm.grid i j = { value := HEAD, moving := some hd } := by
      rw [hcell, stateCell, if_pos hph]
    have htg : writeTarget gm hd bodies (i, j)
        = some (next_location gm.row_count gm.col_count i j hd) := by
      rw [writeTarget, if_pos hph]
    have hwc : ∀ c, writeCell gm hd bodies (i, j) c
        = { value := HEAD, moving := some hd } := fun c => by
      rw [writeCell, if_pos hph]
    have hnlR := next_location_inRange gm.row_count gm.col_count i j hd hr hc hpR.1 hpR.2
    rw [scanWrite_head_eq gm N i j hd hcellH, htg, hwc]
    by_cases hreq : next_location gm.row_count gm.col_count i j hd = (r1, r2)
    · have h1 : (next_location gm.row_count gm.col_count i j hd).1 = r1 := by rw [hreq]
      have h2 : (next_location gm.row_count gm.col_count i j hd).2 = r2 := by rw [hreq]
      rw [if_pos (by rw [hreq]), ← h1, ← h2]
      exact getCell_write_self gm.row_count gm.col_count N _ _ HEAD (some hd) hwfN
        hnlR.1 hnlR.2
    · rw [if_neg (fun hcon => hreq (by injection hcon))]
      exact getCell_write_ne N _ _ r1 r2 HEAD (some hd)
        (fun hcon => hreq (Prod.mk.eta.symm.trans hcon.symm))
  · cases hlb : lookupBody bodies (i, j) with
    | some dq =>
      have hcellB : getCell gm.grid i j = { value := BODY, moving := some dq } := by
        rw [hcell, stateCell, if_neg hph, hlb]
      have htg : writeTarget gm hd bodies (i, j)
          = some (next_location gm.row_count gm.col_count i j dq) := by
        rw [writeTarget, if_neg hph, hlb]
      have hwc : ∀ c, writeCell gm hd bodies (i, j) c
          = { value := BODY, moving :=
              (getCell gm.grid (next_location gm.row_count gm.col_count i j dq).1
                (next_location gm.row_count gm.col_count i j dq).2).moving } := fun c => by
        rw [writeCell, if_neg hph, hlb]
      have hnlR := next_location_inRange gm.row_count gm.col_count i j dq hr hc hpR.1 hpR.2
      rw [scanWrite_body_eq gm N i j dq hcellB, htg, hwc]
      by_cases hreq : next_location gm.row_count gm.col_count i j dq = (r1, r2)
      · have h1 : (next_location gm.row_count gm.col_count i j dq).1 = r1 := by rw [hreq]
        have h2 : (next_location gm.row_count gm.col_count i j dq).2 = r2 := by rw [hreq]
        rw [if_pos (by rw [hreq]), ← h1, ← h2]
        exact getCell_write_self gm.row_count gm.col_count N _ _ BODY _ hwfN hnlR.1 hnlR.2
      · rw [if_neg (fun hcon => hreq (by injection hcon))]
        exact getCell_write_ne N _ _ r1 r2 BODY _
          (fun hcon => hreq (Prod.mk.eta.symm.trans hcon.symm))
    | none =>
      by_cases hpf : (i, j) = gm.food
      · have hcellF : getCell gm.grid i j = { value := FOOD, moving := none } := by
          rw [hcell, stateCell, if_neg hph, hlb, if_pos hpf]
        have htg : writeTarget gm hd bodies (i, j) = some (i, j) := by
          rw [writeTarget, if_neg hph, hlb, if_pos hpf]
        have hwc : ∀ c, writeCell gm hd bodies (i, j) c = { c with value := FOOD } :=
          fun c => by rw [writeCell, if_neg hph, hlb, if_pos hpf]
        rw [scanWrite_food_eq gm N i j hcellF, htg, hwc]
        by_cases hreq : (i, j) = (r1, r2)
        · have h1 : i = r1 := congrArg Prod.fst hreq
          have h2 : j = r2 := congrArg Prod.snd hreq
          subst h1
          subst h2
          rw [if_pos rfl]
          exact getCell_setCellValue_self gm.row_count gm.col_count N i j FOOD hwfN
            hpR.1 hpR.2
        · rw [if_neg (fun hcon => hreq (by injection hcon))]
          exact getCell_setCellValue_ne N i j r1 r2 FOOD (fun hcon => hreq hcon.symm)
      · have hcellE : getCell gm.grid i j = { value := EMPTY, moving := none } := by
          rw [hcell, stateCell, if_neg hph, hlb, if_neg hpf]
        have htg : writeTarget gm hd bodies (i, j) = none := by
          rw [writeTarget, if_neg hph, hlb, if_neg hpf]
        rw [scanWrite_empty_eq gm N i j hcellE, htg, if_neg (by simp)]

/-- One step of the scan on the normal path: process one in-range
position, record the head's destination when that position is the head. -/
theorem scan_step (gm : Game) (s : Nat → Nat × Nat) (fuel : Nat) (hd : Direction)
    (bodies : List ((Nat × Nat) × Direction)) (hv : validState gm hd bodies)
    (hnp : headTarget gm hd ∉ gm.head :: bodies.map Prod.fst)
    (hnf : headTarget gm hd ≠ gm.food)
    (i j : Nat) (hpR : inRange gm.row_count gm.col_count (i, j))
    (L : List (Nat × Nat)) (N : Grid) (hOpt : Option (Nat × Nat)) :
    move_snake_scan gm s fuel ((i, j) :: L) N hOpt =
      move_snake_scan gm s fuel L (scanWrite gm N (i, j))
        (if (i, j) = gm.head then some (headTarget gm hd) else hOpt) := by
  obtain ⟨hwf, hr, hc, hhr, hfr, hbr, hnd, hfm, hch, hgrid⟩ := hv
  have hcell := hgrid (i, j) ((mem_scanPositions _ _ _).mpr hpR)
  by_cases hph : (i, j) = gm.head
  · have hcellH : getCell gm.grid i j = { value := HEAD, moving := some hd } := by
      rw [hcell, stateCell, if_pos hph]
    have hteq : headTarget gm hd = next_location gm.row_count gm.col_count i j hd := by
      rw [headTarget, ← hph]
    have htR : inRange gm.row_count gm.col_count (headTarget gm hd) := by
      rw [hteq]
      exact next_location_inRange gm.row_count gm.col_count i j hd hr hc hpR.1 hpR.2
    have hdest : getCell gm.grid (next_location gm.row_count gm.col_count i j hd).1
        (next_location gm.row_count gm.col_count i j hd).2
        = { value := EMPTY, moving := none } := by
      rw [← hteq, hgrid (headTarget gm hd) ((mem_scanPositions _ _ _).mpr htR),
        stateCell, if_neg (fun h => hnp (by rw [h]; exact List.mem_cons_self _ _)),
        (lookupBody_eq_none_iff _ _).mpr (fun h => hnp (List.mem_cons_of_mem _ h)),
        if_neg hnf]
    rw [scan_step_head gm s fuel i j hd L N hOpt hcellH hdest,
      scanWrite_head_eq gm N i j hd hcellH, if_pos hph, hteq]
  · cases hlb : lookupBody bodies (i, j) with
    | some dq =>
      have hcellB : getCell gm.grid i j = { value := BODY, moving := some dq } := by
        rw [hcell, stateCell, if_neg hph, hlb]
      have hnlR := next_location_inRange gm.row_count gm.col_count i j dq hr hc hpR.1 hpR.2
      have hdest : (getCell gm.grid (next_location gm.row_count gm.col_count i j dq).1
          (next_location gm.row_count gm.col_count i j dq).2).is_food = false := by
        have hmem := lookupBody_eq_some_mem _ _ _ hlb
        have hsn := body_target_mem gm hd bodies hch (i, j) dq hmem
        rw [hgrid (next_location gm.row_count gm.col_count i j dq)
          ((mem_scanPositions _ _ _).mpr hnlR)]
        exact snake_not_food gm hd bodies hnd _ hsn
      rw [scan_step_body gm s fuel i j dq L N hOpt hcellB hdest,
        scanWrite_body_eq gm N i j dq hcellB, if_neg hph]
    | none =>
      by_cases hpf : (i, j) = gm.food
      · have hcellF : getCell gm.grid i j = { value := FOOD, moving := none } := by
          rw [hcell, stateCell, if_neg hph, hlb, if_pos hpf]
        rw [scan_step_food gm s fuel i j L N hOpt hcellF,
          scanWrite_food_eq gm N i j hcellF, if_neg hph]
      · have hcellE : getCell gm.grid i j = { value := EMPTY, moving := none } := by
          rw [hcell, stateCell, if_neg hph, hlb, if_neg hpf]
        rw [scan_step_empty gm s fuel i j L N hOpt hcellE,
          scanWrite_empty_eq gm N i j hcellE, if_neg hph]

/-- The full scan characterization on the normal path: processing a
nodup list of in-range positions leaves an accumulator whose cell at
`r` is the write of the unique processed source targeting `r`, if any. -/
theorem scan_characterize (gm : Game) (s : Nat → Nat × Nat) (fuel : Nat) (hd : Direction)
    (bodies : List ((Nat × Nat) × Direction)) (hv : validState gm hd bodies)
    (hnp : headTarget gm hd ∉ gm.head :: bodies.map Prod.fst)
    (hnf : headTarget gm hd ≠ gm.food) :
    ∀ (L : List (Nat × Nat)) (N : Grid) (hOpt : Option (Nat × Nat)),
      L.Nodup → (∀ p ∈ L, inRange gm.row_count gm.col_count p) →
      gridWF gm.row_count gm.col_count N →
      ∃ G, move_snake_scan gm s fuel L N hOpt =
          move_snake_scan gm s fuel [] G
            (if gm.head ∈ L then some (headTarget gm hd) else hOpt)
        ∧ gridWF gm.row_count gm.col_count G
        ∧ ∀ r, inRange gm.row_count gm.col_count r →
            getCell G r.1 r.2 =
              match L.find? (fun x => decide (writeTarget gm hd bodies x = some r)) with
              | some x => writeCell gm hd bodies x (getCell N r.1 r.2)
              | none => getCell N r.1 r.2 := by
  have hvnd := hv.2.2.2.2.2.2.1
  have hvfm := hv.2.2.2.2.2.2.2.1
  have hvch := hv.2.2.2.2.2.2.2.2.1
  intro L
  induction L with
  | nil =>
    intro N hOpt _ _ hwfN
    refine ⟨N, by simp, hwfN, fun r _ => by simp [List.find?]⟩
  | cons p L ih =>
    obtain ⟨i, j⟩ := p
    intro N hOpt hnd2 hLR hwfN
    rw [List.nodup_cons] at hnd2
    have hpR := hLR (i, j) (List.mem_cons_self _ _)
    have hLR' := fun q hq => hLR q (List.mem_cons_of_mem _ hq)
    rw [scan_step gm s fuel hd bodies hv hnp hnf i j hpR L N hOpt]
    obtain ⟨G, hG, hwfG, hpt⟩ := ih (scanWrite gm N (i, j))
      (if (i, j) = gm.head then some (headTarget gm hd) else hOpt)
      hnd2.2 hLR' (gridWF_scanWrite gm N (i, j) hwfN)
    refine ⟨G, ?_, hwfG, ?_⟩
    · rw [hG]
      by_cases hph : (i, j) = gm.head
      · rw [if_pos hph, if_pos (show gm.head ∈ (i, j) :: L by
          rw [← hph]; exact List.mem_cons_self _ _)]
        by_cases hm : gm.head ∈ L
        · rw [if_pos hm]
        · rw [if_neg hm]
      · rw [if_neg hph]
        have hmiff : (gm.head ∈ (i, j) :: L) ↔ (gm.head ∈ L) := by
          rw [List.mem_cons]
          constructor
          · rintro (h | h)
            · exact absurd h.symm hph
            · exact h
          · exact Or.inr
        by_cases hm : gm.head ∈ L
        · rw [if_pos hm, if_pos (hmiff.mpr hm)]
        · rw [if_neg hm, if_neg (fun h => hm (hmiff.mp h))]
    · intro r hrR
      have hNpt := getCell_scanWrite gm hd bodies hv i j hpR N hwfN r
      rw [hpt r hrR]
      by_cases hpred : writeTarget gm hd bodies (i, j) = some r
      · have hnone : L.find?
            (fun x => decide (writeTarget gm hd bodies x = some r)) = none := by
          rw [List.find?_eq_none]
          intro x hx
          simp only [decide_eq_true_eq]
          intro hcon
          have hxeq := writeTarget_inj gm hd bodies hvnd hvfm hvch hnp hnf x (i, j) r
            hcon hpred
          exact hnd2.1 (hxeq ▸ hx)
        rw [hnone]
        simp only [List.find?_cons, hpred, decide_True]
        rw [hNpt, if_pos hpred]
      · have hdec : decide (writeTarget gm hd bodies (i, j) = some r) = false := by
          simp [hpred]
        simp only [List.find?_cons, hdec]
        rw [hNpt, if_neg hpred]

/-- Reading off the final candidate grid: pointwise it is exactly the
`stateCell` description of the advanced snake — head at its target,
every segment shifted one place forward (the tail dropped), food
unchanged. -/
theorem final_cell_eq (gm : Game) (hd : Direction)
    (bodies : List ((Nat × Nat) × Direction)) (hv : validState gm hd bodies)
    (hnp : headTarget gm hd ∉ gm.head :: bodies.map Prod.fst)
    (hnf : headTarget gm hd ≠ gm.food)
    (r : Nat × Nat) (hrR : inRange gm.row_count gm.col_count r) :
    (match (scanPositions gm.row_count gm.col_count).find?
        (fun x => decide (writeTarget gm hd bodies x = some r)) with
      | some x => writeCell gm hd bodies x
          (getCell (emptyGrid gm.row_count gm.col_count) r.1 r.2)
      | none => getCell (emptyGrid gm.row_count gm.col_count) r.1 r.2)
      = stateCell (headTarget gm hd) hd (((gm.head, hd) :: bodies).dropLast) gm.food r := by
  obtain ⟨hwf, hr, hc, hhr, hfr, hbr, hnd, hfm, hch, hgrid⟩ := hv
  have hvAll : validState gm hd bodies :=
    ⟨hwf, hr, hc, hhr, hfr, hbr, hnd, hfm, hch, hgrid⟩
  have hheadkeys : gm.head ∉ bodies.map Prod.fst := (List.nodup_cons.mp hnd).1
  have hkeysnd : (bodies.map Prod.fst).Nodup := (List.nodup_cons.mp hnd).2
  have hEG : getCell (emptyGrid gm.row_count gm.col_count) r.1 r.2 = {} :=
    getCell_emptyGrid _ _ _ _
  have hNK : (((gm.head, hd) :: bodies).dropLast).map Prod.fst
      = (gm.head :: bodies.map Prod.fst).dropLast := by
    rw [List.map_dropLast, List.map_cons]
  have hfind : ∀ x₀ : Nat × Nat, x₀ ∈ scanPositions gm.row_count gm.col_count →
      writeTarget gm hd bodies x₀ = some r →
      (scanPositions gm.row_count gm.col_count).find?
        (fun x => decide (writeTarget gm hd bodies x = some r)) = some x₀ := by
    intro x₀ hx₀mem hx₀
    have hsome : ((scanPositions gm.row_count gm.col_count).find?
        (fun x => decide (writeTarget gm hd bodies x = some r))).isSome := by
      rw [List.find?_isSome]
      exact ⟨x₀, hx₀mem, by simp [hx₀]⟩
    obtain ⟨y, hy⟩ := Option.isSome_iff_exists.mp hsome
    have hpy := List.find?_some hy
    simp only [decide_eq_true_eq] at hpy
    have := writeTarget_inj gm hd bodies hnd hfm hch hnp hnf y x₀ r hpy hx₀
    rw [hy, this]
  by_cases hrh : r = headTarget gm hd
  · have hwt : writeTarget gm hd bodies gm.head = some r := by
      rw [writeTarget, if_pos rfl]
      show some (headTarget gm hd) = some r
      rw [hrh]
    rw [hfind gm.head ((mem_scanPositions _ _ _).mpr hhr) hwt]
    show writeCell gm hd bodies gm.head
        (getCell (emptyGrid gm.row_count gm.col_count) r.1 r.2)
      = stateCell (headTarget gm hd) hd (((gm.head, hd) :: bodies).dropLast) gm.food r
    rw [stateCell, if_pos hrh, writeCell, if_pos rfl]
  · cases hlbN : lookupBody (((gm.head, hd) :: bodies).dropLast) r with
    | some dr =>
      have hrk : r ∈ (gm.head :: bodies.map Prod.fst).dropLast := by
        rw [← hNK]
        by_contra hcon
        exact absurd ((lookupBody_eq_none_iff _ _).mpr hcon) (by rw [hlbN]; simp)
      have hrmap : r ∈ bodies.map
          (fun b => next_location gm.row_count gm.col_count b.1.1 b.1.2 b.2) := by
        rw [chainB_targets gm.row_count gm.col_count bodies gm.head hch]
        exact hrk
      obtain ⟨⟨pb, db⟩, hpbmem, hpbtgt⟩ := List.mem_map.mp hrmap
      have hpbtgt' : next_location gm.row_count gm.col_count pb.1 pb.2 db = r := hpbtgt
      have hpbh : pb ≠ gm.head := by
        rintro rfl
        exact hheadkeys (List.mem_map_of_mem Prod.fst hpbmem)
      have hwt : writeTarget gm hd bodies pb = some r := by
        rw [writeTarget, if_neg hpbh, mem_lookupBody bodies pb db hkeysnd hpbmem]
        show some (next_location gm.row_count gm.col_count pb.1 pb.2 db) = some r
        rw [hpbtgt']
      have hpbR : inRange gm.row_count gm.col_count pb := hbr (pb, db) hpbmem
      rw [hfind pb ((mem_scanPositions _ _ _).mpr hpbR) hwt]
      show writeCell gm hd bodies pb
          (getCell (emptyGrid gm.row_count gm.col_count) r.1 r.2)
        = stateCell (headTarget gm hd) hd (((gm.head, hd) :: bodies).dropLast) gm.food r
      rw [writeCell, if_neg hpbh, mem_lookupBody bodies pb db hkeysnd hpbmem]
      show { value := BODY, moving := (getCell gm.grid
          (next_location gm.row_count gm.col_count pb.1 pb.2 db).1
          (next_location gm.row_count gm.col_count pb.1 pb.2 db).2).moving }
        = stateCell (headTarget gm hd) hd (((gm.head, hd) :: bodies).dropLast) gm.food r
      rw [hpbtgt', stateCell, if_neg hrh, hlbN]
      show ({ value := BODY, moving := (getCell gm.grid r.1 r.2).moving } : Cell)
        = { value := BODY, moving := some dr }
      -- remaining: the old cell's heading at `r` is the recorded `dr`
      have hOLD : (stateCell gm.head hd bodies gm.food r).moving = some dr := by
        cases bodies with
        | nil => exact absurd hlbN (by simp [lookupBody])
        | cons b rest =>
          rw [dropLast_cons_cons] at hlbN
          by_cases hrhead : r = gm.head
          · simp only [lookupBody, if_pos hrhead] at hlbN
            injection hlbN with hdr
            rw [stateCell, if_pos hrhead, ← hdr]
          · simp only [lookupBody, if_neg hrhead] at hlbN
            have hfull := lookupBody_prefix ((b :: rest).dropLast)
              [(b :: rest).getLast (by simp)] r dr hlbN
            rw [List.dropLast_append_getLast (by simp)] at hfull
            rw [stateCell, if_neg hrhead, hfull]
      rw [hgrid r ((mem_scanPositions _ _ _).mpr hrR), hOLD]
    | none =>
      have hfh : gm.food ≠ gm.head :=
        fun h => hfm (by rw [h]; exact List.mem_cons_self _ _)
      have hfk : lookupBody bodies gm.food = none :=
        (lookupBody_eq_none_iff _ _).mpr (fun h => hfm (List.mem_cons_of_mem _ h))
      by_cases hrf : r = gm.food
      · have hwt : writeTarget gm hd bodies gm.food = some r := by
          rw [writeTarget, if_neg hfh, hfk]
          show (if gm.food = gm.food then some gm.food else none) = some r
          rw [if_pos rfl, hrf]
        rw [hfind gm.food ((mem_scanPositions _ _ _).mpr hfr) hwt]
        show writeCell gm hd bodies gm.food
            (getCell (emptyGrid gm.row_count gm.col_count) r.1 r.2)
          = stateCell (headTarget gm hd) hd (((gm.head, hd) :: bodies).dropLast) gm.food r
        rw [writeCell, if_neg hfh, hfk]
        show (if gm.food = gm.food
            then { getCell (emptyGrid gm.row_count gm.col_count) r.1 r.2 with
                    value := FOOD }
            else getCell (emptyGrid gm.row_count gm.col_count) r.1 r.2)
          = stateCell (headTarget gm hd) hd (((gm.head, hd) :: bodies).dropLast) gm.food r
        rw [if_pos rfl, hEG, stateCell, if_neg hrh, hlbN]
        show ({ (⟨EMPTY, none⟩ : Cell) with value := FOOD } : Cell)
          = (if r = gm.food then { value := FOOD, moving := none } else {})
        rw [if_pos hrf]
      · have hnone : (scanPositions gm.row_count gm.col_count).find?
            (fun x => decide (writeTarget gm hd bodies x = some r)) = none := by
          rw [List.find?_eq_none]
          intro x hx
          simp only [decide_eq_true_eq]
          intro hcon
          rcases writeTarget_class gm hd bodies x r hcon with
              ⟨-, hr1⟩ | ⟨dq, hmem, -, hr1⟩ | ⟨-, hr1⟩
          · exact hrh hr1
          · have hin : r ∈ (((gm.head, hd) :: bodies).dropLast).map Prod.fst := by
              rw [hNK, ← chainB_targets gm.row_count gm.col_count bodies gm.head hch,
                hr1]
              exact List.mem_map_of_mem _ hmem
            exact absurd hin ((lookupBody_eq_none_iff _ _).mp hlbN)
          · exact hrf hr1
        rw [hnone, hEG, stateCell, if_neg hrh, hlbN]
        show ({ value := EMPTY, moving := none } : Cell)
          = (if r = gm.food then { value := FOOD, moving := none } else {})
        rw [if_neg hrf]

/-- The normal (non-growth, non-collision) path of `move_snake`: the
scan commits a candidate grid in which the head sits at its target with
its own heading, every body cell sits one step forward carrying the
heading the current grid held at that position, the tail cell is
dropped, and the food is copied; the head back-reference becomes the
head's target. -/
theorem move_snake_normal (gm : Game) (s : Nat → Nat × Nat) (fuel : Nat) (hd : Direction)
    (bodies : List ((Nat × Nat) × Direction)) (hv : validState gm hd bodies)
    (hnp : headTarget gm hd ∉ gm.head :: bodies.map Prod.fst)
    (hnf : headTarget gm hd ≠ gm.food) :
    ∃ G, move_snake gm s fuel = .ok { gm with grid := G, head := headTarget gm hd }
      ∧ gridWF gm.row_count gm.col_count G
      ∧ ∀ r, inRange gm.row_count gm.col_count r →
          getCell G r.1 r.2 =
            stateCell (headTarget gm hd) hd (((gm.head, hd) :: bodies).dropLast)
              gm.food r := by
  obtain ⟨G, hG, hwfG, hpt⟩ := scan_characterize gm s fuel hd bodies hv hnp hnf
    (scanPositions gm.row_count gm.col_count) (emptyGrid gm.row_count gm.col_count) none
    (scanPositions_nodup _ _) (fun p hp => (mem_scanPositions _ _ _).mp hp)
    (gridWF_emptyGrid _ _)
  refine ⟨G, ?_, hwfG, ?_⟩
  · rw [move_snake, hG,
      if_pos ((mem_scanPositions _ _ _).mpr hv.2.2.2.1)]
    simp only [move_snake_scan]
  · intro r hrR
    rw [hpt r hrR]
    exact final_cell_eq gm hd bodies hv hnp hnf r hrR

/-! ### Counting cells -/

/-- Number of cells of the grid satisfying `f`. -/
def countCells (g : Grid) (f : Cell → Bool) : Nat := (g.map (List.countP f)).sum

/-- Number of Head cells in the grid. -/
def headCount (g : Grid) : Nat := countCells g Cell.is_head

/-- Number of Food cells in the grid. -/
def foodCount (g : Grid) : Nat := countCells g Cell.is_food

/-- Number of occupied (non-Empty) cells in the grid. -/
def occupiedCount (g : Grid) : Nat := countCells g (fun c => !c.is_empty)

theorem countP_flatMap {α β : Type _} (q : β → Bool) :
    ∀ (l : List α) (F : α → List β),
      (l.flatMap F).countP q = (l.map (fun a => (F a).countP q)).sum := by
  intro l
  induction l with
  | nil => intro F; rfl
  | cons a l ih =>
    intro F
    rw [List.flatMap_cons, List.countP_append, List.map_cons, List.sum_cons, ih]

theorem row_countP (f : Cell → Bool) : ∀ (row : List Cell),
    row.countP f = (List.range row.length).countP (fun j => f (row.getD j {})) := by
  intro row
  induction row with
  | nil => rfl
  | cons c row ih =>
    rw [List.countP_cons, List.length_cons, List.range_succ_eq_map, List.countP_cons,
      List.countP_map, ih]
    have hpt : List.countP (fun j => f (row.getD j {})) (List.range row.length)
        = List.countP ((fun j => f ((c :: row).getD j {})) ∘ Nat.succ)
          (List.range row.length) :=
      List.countP_congr (fun j _ => Iff.rfl)
    rw [hpt]
    rfl

theorem countCells_eq_countP : ∀ (g : Grid) (cols : Nat) (f : Cell → Bool),
    (∀ i, i < g.length → (g.getD i []).length = cols) →
    countCells g f
      = (scanPositions g.length cols).countP (fun p => f (getCell g p.1 p.2)) := by
  intro g
  induction g with
  | nil => intro cols f _; rfl
  | cons row g ih =>
    intro cols f hwf
    have hr0 : row.length = cols := hwf 0 (Nat.succ_pos _)
    have hrec := ih cols f (fun i hi => hwf (i + 1) (Nat.succ_lt_succ hi))
    rw [countCells, List.map_cons, List.sum_cons]
    rw [scanPositions, List.length_cons, List.range_succ_eq_map, List.flatMap_cons,
      List.countP_append, List.flatMap_map]
    congr 1
    · rw [List.countP_map, row_countP f row, hr0]
      exact List.countP_congr (fun j _ => Iff.rfl)
    · have hL : (List.map (List.countP f) g).sum = countCells g f := rfl
      rw [hL, hrec, scanPositions, countP_flatMap, countP_flatMap]
      congr 1
      apply List.map_congr_left
      intro a _
      rw [List.countP_map, List.countP_map]
      exact List.countP_congr (fun j _ => Iff.rfl)

/-- Counting via the scan order for any well-formed grid. -/
theorem countCells_wf (rows cols : Nat) (g : Grid) (hwf : gridWF rows cols g)
    (f : Cell → Bool) :
    countCells g f = (scanPositions rows cols).countP (fun p => f (getCell g p.1 p.2)) := by
  obtain ⟨hlen, hrow⟩ := hwf
  subst hlen
  exact countCells_eq_countP g cols f hrow

theorem countP_eq_one_of_nodup (l : List (Nat × Nat)) (a : Nat × Nat) (hnd : l.Nodup)
    (hmem : a ∈ l) : l.countP (fun x => decide (x = a)) = 1 := by
  induction l with
  | nil => cases hmem
  | cons b l ih =>
    rw [List.nodup_cons] at hnd
    rw [List.countP_cons]
    rcases List.mem_cons.mp hmem with h | h
    · have hz : l.countP (fun x => decide (x = a)) = 0 := by
        rw [List.countP_eq_zero]
        intro x hx
        simp only [decide_eq_true_eq]
        rintro rfl
        exact hnd.1 (h ▸ hx)
      rw [hz, ← h]
      simp
    · have hba : ¬ b = a := by
        rintro rfl
        exact hnd.1 h
      rw [ih hnd.2 h]
      simp [hba]

theorem countP_or_split (l : List (Nat × Nat)) (p q : Nat × Nat → Bool)
    (hdisj : ∀ x, ¬(p x = true ∧ q x = true)) :
    l.countP (fun x => p x || q x) = l.countP p + l.countP q := by
  induction l with
  | nil => rfl
  | cons a l ih =>
    rw [List.countP_cons, List.countP_cons, List.countP_cons, ih]
    cases hp : p a <;> cases hq : q a
    · simp
    · simp
      omega
    · simp
      omega
    · exact absurd ⟨hp, hq⟩ (hdisj a)

theorem countP_mem_length (l : List (Nat × Nat)) (hl : l.Nodup) :
    ∀ (W : List (Nat × Nat)), W.Nodup → (∀ a ∈ W, a ∈ l) →
      l.countP (fun x => decide (x ∈ W)) = W.length := by
  intro W
  induction W with
  | nil =>
    intro _ _
    have hz : ∀ x ∈ l, ¬(decide (x ∈ ([] : List (Nat × Nat))) = true) := by simp
    simpa using List.countP_eq_zero.mpr hz
  | cons a W ih =>
    intro hnw hsub
    rw [List.nodup_cons] at hnw
    have hcg : l.countP (fun x => decide (x ∈ a :: W))
        = l.countP (fun x => decide (x = a) || decide (x ∈ W)) := by
      apply List.countP_congr
      intro x _
      simp [List.mem_cons]
    rw [hcg, countP_or_split l _ _ (by
      intro x
      simp only [decide_eq_true_eq]
      rintro ⟨rfl, hxw⟩
      exact hnw.1 hxw)]
    rw [countP_eq_one_of_nodup l a hl (hsub a (List.mem_cons_self _ _)),
      ih hnw.2 (fun b hb => hsub b (List.mem_cons_of_mem _ hb)), List.length_cons]
    omega

theorem mk_empty_is_head (m : Option Direction) : (Cell.mk EMPTY m).is_head = false := rfl

theorem stateCell_is_head_iff (hp : Nat × Nat) (hd : Direction)
    (bodies : List ((Nat × Nat) × Direction)) (fp p : Nat × Nat) :
    (stateCell hp hd bodies fp p).is_head = true ↔ p = hp := by
  rw [stateCell]
  by_cases hph : p = hp
  · simp [hph, mk_head_is_head]
  · rw [if_neg hph]
    cases hlb : lookupBody bodies p with
    | some dq => simp [mk_body_is_head, hph]
    | none =>
      by_cases hpf : p = fp
      · rw [if_pos hpf]
        simp [mk_food_is_head, hph]
      · rw [if_neg hpf]
        simp [mk_empty_is_head, hph]

theorem stateCell_is_food_iff (hp : Nat × Nat) (hd : Direction)
    (bodies : List ((Nat × Nat) × Direction)) (fp p : Nat × Nat)
    (hfm : fp ∉ hp :: bodies.map Prod.fst) :
    (stateCell hp hd bodies fp p).is_food = true ↔ p = fp := by
  rw [stateCell]
  by_cases hph : p = hp
  · rw [if_pos hph]
    simp only [mk_head_is_food]
    constructor
    · intro h; cases h
    · intro h
      exact absurd (show fp ∈ hp :: bodies.map Prod.fst by
        rw [← h, hph]; exact List.mem_cons_self _ _) hfm
  · rw [if_neg hph]
    cases hlb : lookupBody bodies p with
    | some dq =>
      simp only [mk_body_is_food]
      constructor
      · intro h; cases h
      · intro h
        have hmemk : p ∈ bodies.map Prod.fst :=
          List.mem_map_of_mem Prod.fst (lookupBody_eq_some_mem _ _ _ hlb)
        exact absurd (List.mem_cons_of_mem _ (h ▸ hmemk)) hfm
    | none =>
      by_cases hpf : p = fp
      · simp [hpf, mk_food_is_food]
      · rw [if_neg hpf]
        constructor
        · intro h
          exact absurd h (by decide)
        · intro h
          exact absurd h hpf

theorem stateCell_occupied_iff (hp : Nat × Nat) (hd : Direction)
    (bodies : List ((Nat × Nat) × Direction)) (fp p : Nat × Nat) :
    ((stateCell hp hd bodies fp p).is_empty = false)
      ↔ (p = hp ∨ p ∈ bodies.map Prod.fst ∨ p = fp) := by
  rw [stateCell]
  by_cases hph : p = hp
  · simp [hph, mk_head_is_empty]
  · rw [if_neg hph]
    cases hlb : lookupBody bodies p with
    | some dq =>
      have hmemk : p ∈ bodies.map Prod.fst :=
        List.mem_map_of_mem Prod.fst (lookupBody_eq_some_mem _ _ _ hlb)
      simp [mk_body_is_empty, hmemk]
    | none =>
      have hnk : p ∉ bodies.map Prod.fst := (lookupBody_eq_none_iff _ _).mp hlb
      by_cases hpf : p = fp
      · simp [hpf, mk_food_is_empty]
      · rw [if_neg hpf]
        constructor
        · intro h
          exact absurd h (by decide)
        · intro h
          rcases h with h | h | h
          · exact absurd h hph
          · exact absurd h hnk
          · exact absurd h hpf

/-- The exact counts of any grid in `stateCell` form: one head, one
food, and `bodies.length + 2` occupied cells. -/
theorem counts_of_stateCell_grid (rows cols : Nat) (g : Grid)
    (hp : Nat × Nat) (hd : Direction) (bodies : List ((Nat × Nat) × Direction))
    (fp : Nat × Nat)
    (hwf : gridWF rows cols g)
    (hgrid : ∀ p ∈ scanPositions rows cols, getCell g p.1 p.2 = stateCell hp hd bodies fp p)
    (hndk : (hp :: bodies.map Prod.fst).Nodup)
    (hfm : fp ∉ hp :: bodies.map Prod.fst)
    (hhr : inRange rows cols hp) (hfr : inRange rows cols fp)
    (hbr : ∀ b ∈ bodies, inRange rows cols b.1) :
    headCount g = 1 ∧ foodCount g = 1 ∧ occupiedCount g = bodies.length + 2 := by
  have hscannd := scanPositions_nodup rows cols
  refine ⟨?_, ?_, ?_⟩
  · rw [headCount, countCells_wf rows cols g hwf]
    have hcongr : (scanPositions rows cols).countP
          (fun p => (getCell g p.1 p.2).is_head)
        = (scanPositions rows cols).countP (fun x => decide (x = hp)) := by
      apply List.countP_congr
      intro p hps
      rw [hgrid p hps, decide_eq_true_eq]
      exact stateCell_is_head_iff hp hd bodies fp p
    rw [hcongr]
    exact countP_eq_one_of_nodup _ hp hscannd ((mem_scanPositions _ _ _).mpr hhr)
  · rw [foodCount, countCells_wf rows cols g hwf]
    have hcongr : (scanPositions rows cols).countP
          (fun p => (getCell g p.1 p.2).is_food)
        = (scanPositions rows cols).countP (fun x => decide (x = fp)) := by
      apply List.countP_congr
      intro p hps
      rw [hgrid p hps, decide_eq_true_eq]
      exact stateCell_is_food_iff hp hd bodies fp p hfm
    rw [hcongr]
    exact countP_eq_one_of_nodup _ fp hscannd ((mem_scanPositions _ _ _).mpr hfr)
  · rw [occupiedCount, countCells_wf rows cols g hwf]
    have hcongr : (scanPositions rows cols).countP
          (fun p => !(getCell g p.1 p.2).is_empty)
        = (scanPositions rows cols).countP
          (fun x => decide (x ∈ hp :: bodies.map Prod.fst ++ [fp])) := by
      apply List.countP_congr
      intro p hps
      rw [hgrid p hps, decide_eq_true_eq, Bool.not_eq_true']
      rw [stateCell_occupied_iff hp hd bodies fp p]
      simp [List.mem_cons, List.mem_append]
    rw [hcongr]
    have hWnd : (hp :: bodies.map Prod.fst ++ [fp]).Nodup := by
      rw [List.nodup_append]
      refine ⟨hndk, List.nodup_singleton _, ?_⟩
      intro x hx hx1
      rw [List.mem_singleton] at hx1
      subst hx1
      exact hfm hx
    have hWsub : ∀ a ∈ hp :: bodies.map Prod.fst ++ [fp], a ∈ scanPositions rows cols := by
      intro a ha
      rw [mem_scanPositions]
      rcases List.mem_append.mp ha with ha | ha
      · rcases List.mem_cons.mp ha with ha | ha
        · exact ha ▸ hhr
        · obtain ⟨⟨q, dq⟩, hmem, hq⟩ := List.mem_map.mp ha
          exact hq ▸ hbr (q, dq) hmem
      · rw [List.mem_singleton] at ha
        exact ha ▸ hfr
    rw [countP_mem_length _ hscannd _ hWnd hWsub]
    simp [List.length_append, List.length_map]

/-- A valid state satisfies the fast-path/collision lemmas' benignness
hypotheses: one head cell, and every body cell has a heading whose
destination is not food. -/
theorem validState_fast_hyps (gm : Game) (hd : Direction)
    (bodies : List ((Nat × Nat) × Direction)) (hv : validState gm hd bodies) :
    getCell gm.grid gm.head.1 gm.head.2 = { value := HEAD, moving := some hd }
    ∧ (∀ r ∈ scanPositions gm.row_count gm.col_count, r ≠ gm.head →
        (getCell gm.grid r.1 r.2).is_head = false)
    ∧ (∀ r ∈ scanPositions gm.row_count gm.col_count, r ≠ gm.head →
        (getCell gm.grid r.1 r.2).is_empty = false →
        (getCell gm.grid r.1 r.2).is_food = false →
        ∃ mv, (getCell gm.grid r.1 r.2).moving = some mv ∧
          (getCell gm.grid (next_location gm.row_count gm.col_count r.1 r.2 mv).1
            (next_location gm.row_count gm.col_count r.1 r.2 mv).2).is_food = false) := by
  obtain ⟨hwf, hr, hc, hhr, hfr, hbr, hnd, hfm, hch, hgrid⟩ := hv
  refine ⟨?_, ?_, ?_⟩
  · rw [hgrid gm.head ((mem_scanPositions _ _ _).mpr hhr), stateCell, if_pos rfl]
  · intro r hrs hrne
    rw [hgrid r hrs]
    cases hb : (stateCell gm.head hd bodies gm.food r).is_head
    · rfl
    · exact absurd ((stateCell_is_head_iff gm.head hd bodies gm.food r).mp hb) hrne
  · intro r hrs hrne hremp hrfood
    rw [hgrid r hrs] at hremp hrfood ⊢
    cases hlb : lookupBody bodies r with
    | none =>
      exfalso
      by_cases hpf : r = gm.food
      · rw [stateCell, if_neg hrne, hlb, if_pos hpf] at hrfood
        exact absurd hrfood (by decide)
      · rw [stateCell, if_neg hrne, hlb, if_neg hpf] at hremp
        exact absurd hremp (by decide)
    | some dq =>
      refine ⟨dq, ?_, ?_⟩
      · rw [stateCell, if_neg hrne, hlb]
      · have hmem := lookupBody_eq_some_mem _ _ _ hlb
        have hsn := body_target_mem gm hd bodies hch r dq hmem
        have hrR : inRange gm.row_count gm.col_count r := (mem_scanPositions _ _ _).mp hrs
        have hnlR := next_location_inRange gm.row_count gm.col_count r.1 r.2 dq hr hc
          hrR.1 hrR.2
        rw [hgrid _ ((mem_scanPositions _ _ _).mpr hnlR)]
        exact snake_not_food gm hd bodies hnd _ hsn

/-- The outcome of `move_snake` when the head's destination holds
food, as a function of the food regeneration result. -/
theorem move_snake_fast_path_match (gm : Game) (s : Nat → Nat × Nat) (fuel : Nat)
    (hp fp : Nat × Nat) (d : Direction) (g4 : Grid)
    (hhr : inRange gm.row_count gm.col_count hp)
    (hhead : getCell gm.grid hp.1 hp.2 = { value := HEAD, moving := some d })
    (hfp : fp = next_location gm.row_count gm.col_count hp.1 hp.2 d)
    (hfood : (getCell gm.grid fp.1 fp.2).is_food = true)
    (honehead : ∀ r ∈ scanPositions gm.row_count gm.col_count, r ≠ hp →
      (getCell gm.grid r.1 r.2).is_head = false)
    (hbodies : ∀ r ∈ scanPositions gm.row_count gm.col_count, r ≠ hp →
      (getCell gm.grid r.1 r.2).is_empty = false →
      (getCell gm.grid r.1 r.2).is_food = false →
      ∃ mv, (getCell gm.grid r.1 r.2).moving = some mv ∧
        (getCell gm.grid (next_location gm.row_count gm.col_count r.1 r.2 mv).1
          (next_location gm.row_count gm.col_count r.1 r.2 mv).2).is_food = false)
    (hg4 : g4 = setCellMoving
        (setCellValue (setCellMoving (setCellValue gm.grid hp.1 hp.2 BODY) hp.1 hp.2 (some d))
          fp.1 fp.2 HEAD) fp.1 fp.2 (some d)) :
    move_snake gm s fuel =
      (match generate_food gm.row_count gm.col_count s g4 fuel 0 with
        | none => .errFoodGen
        | some (q, g5) =>
          .ate { gm with
                   grid := g5
                   head := fp
                   score := gm.score + 1
                   food := q
                   sleep_time := update_sleep_time gm.sleep_time }) := by
  obtain ⟨hi, hj⟩ := hp
  obtain ⟨f1, f2⟩ := fp
  dsimp only at hhead hfp hfood hg4 ⊢
  have hmem : (hi, hj) ∈ scanPositions gm.row_count gm.col_count :=
    (mem_scanPositions _ _ _).mpr hhr
  obtain ⟨L1, L2, hsplit⟩ := List.append_of_mem hmem
  have hnotin : (hi, hj) ∉ L1 := by
    have hnd := scanPositions_nodup gm.row_count gm.col_count
    rw [hsplit] at hnd
    obtain ⟨-, -, hdisj⟩ := List.nodup_append.mp hnd
    exact fun hin => hdisj hin (List.mem_cons_self _ _)
  have hben : ∀ p ∈ L1, benignCell gm p := by
    intro p hpL1
    have hpscan : p ∈ scanPositions gm.row_count gm.col_count := by
      rw [hsplit]
      exact List.mem_append.mpr (Or.inl hpL1)
    have hpne : p ≠ (hi, hj) := fun hcontra => hnotin (hcontra ▸ hpL1)
    by_cases he : (getCell gm.grid p.1 p.2).is_empty = true
    · exact Or.inl he
    · by_cases hf : (getCell gm.grid p.1 p.2).is_food = true
      · exact Or.inr (Or.inl hf)
      · have he' : (getCell gm.grid p.1 p.2).is_empty = false := by
          revert he; cases (getCell gm.grid p.1 p.2).is_empty <;> simp
        have hf' : (getCell gm.grid p.1 p.2).is_food = false := by
          revert hf; cases (getCell gm.grid p.1 p.2).is_food <;> simp
        obtain ⟨mv, hmv, hnf⟩ := hbodies p hpscan hpne he' hf'
        exact Or.inr (Or.inr ⟨he', hf', honehead p hpscan hpne, mv, hmv, hnf⟩)
  rw [move_snake, hsplit]
  obtain ⟨N', hN'⟩ := scan_benign_steps gm s fuel L1 ((hi, hj) :: L2)
    (emptyGrid gm.row_count gm.col_count) none hben
  rw [hN']
  simp only [move_snake_scan]
  rw [hhead]
  simp only [mk_head_is_empty, mk_head_is_food, mk_head_is_head, Bool.false_eq_true,
    if_false]
  rw [← hfp]
  simp only [if_pos hfood, if_true]
  rw [← hg4]

/-- After one advance, each new body cell's heading is the heading the
old grid held at that position. -/
theorem newBody_moving (gm : Game) (hd : Direction)
    (bodies : List ((Nat × Nat) × Direction)) (r : Nat × Nat) (dr : Direction)
    (hlbN : lookupBody (((gm.head, hd) :: bodies).dropLast) r = some dr) :
    (stateCell gm.head hd bodies gm.food r).moving = some dr := by
  cases bodies with
  | nil => exact absurd hlbN (by simp [lookupBody])
  | cons b rest =>
    rw [dropLast_cons_cons] at hlbN
    by_cases hrhead : r = gm.head
    · simp only [lookupBody, if_pos hrhead] at hlbN
      injection hlbN with hdr
      rw [stateCell, if_pos hrhead, ← hdr]
    · simp only [lookupBody, if_neg hrhead] at hlbN
      have hfull := lookupBody_prefix ((b :: rest).dropLast)
        [(b :: rest).getLast (by simp)] r dr hlbN
      rw [List.dropLast_append_getLast (by simp)] at hfull
      rw [stateCell, if_neg hrhead, hfull]

/-! ### The growth tick -/

/-- The grid after the fast path's four in-place cell writes: the old
head cell becomes Body and the food cell becomes Head, both carrying
the head's heading. -/
def fastGrid (gm : Game) (hd : Direction) : Grid :=
  setCellMoving
    (setCellValue
      (setCellMoving (setCellValue gm.grid gm.head.1 gm.head.2 BODY) gm.head.1 gm.head.2
        (some hd))
      (headTarget gm hd).1 (headTarget gm hd).2 HEAD)
    (headTarget gm hd).1 (headTarget gm hd).2 (some hd)

theorem gridWF_fastGrid (gm : Game) (hd : Direction)
    (hwf : gridWF gm.row_count gm.col_count gm.grid) :
    gridWF gm.row_count gm.col_count (fastGrid gm hd) :=
  gridWF_setCellMoving _ _ _ _ _ _
    (gridWF_setCellValue _ _ _ _ _ _
      (gridWF_setCellMoving _ _ _ _ _ _ (gridWF_setCellValue _ _ _ _ _ _ hwf)))

theorem fastGrid_cells (gm : Game) (hd : Direction)
    (hwf : gridWF gm.row_count gm.col_count gm.grid)
    (hhr : inRange gm.row_count gm.col_count gm.head)
    (hfr : inRange gm.row_count gm.col_count (headTarget gm hd))
    (hne : gm.head ≠ headTarget gm hd) :
    getCell (fastGrid gm hd) (headTarget gm hd).1 (headTarget gm hd).2
        = { value := HEAD, moving := some hd }
    ∧ getCell (fastGrid gm hd) gm.head.1 gm.head.2 = { value := BODY, moving := some hd }
    ∧ ∀ r : Nat × Nat, r ≠ gm.head → r ≠ headTarget gm hd →
        getCell (fastGrid gm hd) r.1 r.2 = getCell gm.grid r.1 r.2 := by
  refine ⟨?_, ?_, ?_⟩
  · exact getCell_write_self gm.row_count gm.col_count _ _ _ HEAD (some hd)
      (gridWF_setCellMoving _ _ _ _ _ _ (gridWF_setCellValue _ _ _ _ _ _ hwf))
      hfr.1 hfr.2
  · have h1 : (gm.head.1, gm.head.2) ≠ ((headTarget gm hd).1, (headTarget gm hd).2) := by
      simpa [Prod.ext_iff] using hne
    rw [fastGrid, getCell_write_ne _ _ _ _ _ HEAD (some hd) h1]
    exact getCell_write_self gm.row_count gm.col_count gm.grid gm.head.1 gm.head.2 BODY
      (some hd) hwf hhr.1 hhr.2
  · intro r hrh hrt
    have h1 : (r.1, r.2) ≠ ((headTarget gm hd).1, (headTarget gm hd).2) := by
      simpa [Prod.ext_iff] using hrt
    have h2 : (r.1, r.2) ≠ (gm.head.1, gm.head.2) := by
      simpa [Prod.ext_iff] using hrh
    rw [fastGrid, getCell_write_ne _ _ _ _ _ HEAD (some hd) h1,
      getCell_write_ne _ _ _ _ _ BODY (some hd) h2]

/-- Exact counts after a growth tick: the committed grid has one Head
(at the old food cell), one Food (at the freshly sampled cell), and one
more occupied cell than the snake-plus-food of the old state. -/
theorem growth_counts (gm : Game) (hd : Direction)
    (bodies : List ((Nat × Nat) × Direction)) (hv : validState gm hd bodies)
    (hnf : headTarget gm hd = gm.food) (q : Nat × Nat) (g5 : Grid)
    (hqR : inRange gm.row_count gm.col_count q)
    (hqE : (getCell (fastGrid gm hd) q.1 q.2).is_empty = true)
    (hg5 : g5 = setCellValue (fastGrid gm hd) q.1 q.2 FOOD) :
    headCount g5 = 1 ∧ foodCount g5 = 1 ∧ occupiedCount g5 = bodies.length + 3 := by
  obtain ⟨hwf, hr, hc, hhr, hfr, hbr, hnd, hfm, hch, hgrid⟩ := hv
  have hhne : gm.head ≠ headTarget gm hd := by
    intro h
    exact hfm (by rw [← hnf, ← h]; exact List.mem_cons_self _ _)
  have htR : inRange gm.row_count gm.col_count (headTarget gm hd) := hnf ▸ hfr
  obtain ⟨hcT, hcH, hcE⟩ := fastGrid_cells gm hd hwf hhr htR hhne
  -- the sampled cell is outside the snake and the old food cell
  have hqh : q ≠ gm.head := by
    intro h
    rw [h, hcH] at hqE
    cases hqE
  have hqt : q ≠ headTarget gm hd := by
    intro h
    rw [h, hcT] at hqE
    cases hqE
  have hqE' : (getCell gm.grid q.1 q.2).is_empty = true := by
    rw [← hcE q hqh hqt]
    exact hqE
  have hqscan : q ∈ scanPositions gm.row_count gm.col_count :=
    (mem_scanPositions _ _ _).mpr hqR
  have hqnot : ¬(q = gm.head ∨ q ∈ bodies.map Prod.fst ∨ q = gm.food) := by
    intro h
    rw [hgrid q hqscan,
      (stateCell_occupied_iff gm.head hd bodies gm.food q).mpr h] at hqE'
    cases hqE'
  push_neg at hqnot
  obtain ⟨-, hqk, hqf⟩ := hqnot
  -- the committed grid, pointwise
  have hwf5 : gridWF gm.row_count gm.col_count g5 := by
    rw [hg5]
    exact gridWF_setCellValue _ _ _ _ _ _ (gridWF_fastGrid gm hd hwf)
  have hcell5 : ∀ p : Nat × Nat, p ≠ q →
      getCell g5 p.1 p.2 = getCell (fastGrid gm hd) p.1 p.2 := by
    intro p hpq
    rw [hg5]
    exact getCell_setCellValue_ne _ _ _ _ _ FOOD (by simpa [Prod.ext_iff] using hpq)
  have hcell5q : getCell g5 q.1 q.2
      = Cell.mk FOOD ((getCell (fastGrid gm hd) q.1 q.2).moving) := by
    rw [hg5]
    exact getCell_setCellValue_self gm.row_count gm.col_count _ q.1 q.2 FOOD
      (gridWF_fastGrid gm hd hwf) hqR.1 hqR.2
  have hscannd := scanPositions_nodup gm.row_count gm.col_count
  refine ⟨?_, ?_, ?_⟩
  · rw [headCount, countCells_wf gm.row_count gm.col_count g5 hwf5]
    have hcongr : (scanPositions gm.row_count gm.col_count).countP
          (fun p => (getCell g5 p.1 p.2).is_head)
        = (scanPositions gm.row_count gm.col_count).countP
          (fun x => decide (x = headTarget gm hd)) := by
      apply List.countP_congr
      intro p hps
      rw [decide_eq_true_eq]
      by_cases hpq : p = q
      · subst hpq
        rw [hcell5q]
        simp [mk_food_is_head, hqt]
      · rw [hcell5 p hpq]
        by_cases hph : p = gm.head
        · subst hph
          rw [hcH]
          simp [mk_body_is_head, hhne]
        · by_cases hpt : p = headTarget gm hd
          · subst hpt
            rw [hcT]
            simp [mk_head_is_head]
          · rw [hcE p hph hpt, hgrid p hps, stateCell_is_head_iff]
            exact ⟨fun h => absurd h hph, fun h => absurd h hpt⟩
    rw [hcongr]
    exact countP_eq_one_of_nodup _ _ hscannd ((mem_scanPositions _ _ _).mpr htR)
  · rw [foodCount, countCells_wf gm.row_count gm.col_count g5 hwf5]
    have hcongr : (scanPositions gm.row_count gm.col_count).countP
          (fun p => (getCell g5 p.1 p.2).is_food)
        = (scanPositions gm.row_count gm.col_count).countP
          (fun x => decide (x = q)) := by
      apply List.countP_congr
      intro p hps
      rw [decide_eq_true_eq]
      by_cases hpq : p = q
      · subst hpq
        rw [hcell5q]
        simp [mk_food_is_food]
      · rw [hcell5 p hpq]
        by_cases hph : p = gm.head
        · subst hph
          rw [hcH]
          simp [mk_body_is_food, hpq]
        · by_cases hpt : p = headTarget gm hd
          · subst hpt
            rw [hcT]
            simp [mk_head_is_food, hpq]
          · rw [hcE p hph hpt, hgrid p hps,
              stateCell_is_food_iff gm.head hd bodies gm.food p hfm]
            exact ⟨fun h => absurd (h.trans hnf.symm) hpt, fun h => absurd h hpq⟩
    rw [hcongr]
    exact countP_eq_one_of_nodup _ _ hscannd hqscan
  · rw [occupiedCount, countCells_wf gm.row_count gm.col_count g5 hwf5]
    have hcongr : (scanPositions gm.row_count gm.col_count).countP
          (fun p => !(getCell g5 p.1 p.2).is_empty)
        = (scanPositions gm.row_count gm.col_count).countP
          (fun x => decide (x ∈ q :: gm.head :: bodies.map Prod.fst ++ [gm.food])) := by
      apply List.countP_congr
      intro p hps
      rw [decide_eq_true_eq, Bool.not_eq_true']
      by_cases hpq : p = q
      · subst hpq
        rw [hcell5q]
        simp [mk_food_is_empty]
      · rw [hcell5 p hpq]
        by_cases hph : p = gm.head
        · subst hph
          rw [hcH]
          simp [mk_body_is_empty]
        · by_cases hpt : p = headTarget gm hd
          · subst hpt
            rw [hcT, hnf]
            simp [mk_head_is_empty]
          · rw [hcE p hph hpt, hgrid p hps, stateCell_occupied_iff]
            have hpf : p ≠ gm.food := fun h => hpt (h.trans hnf.symm)
            simp only [List.cons_append, List.mem_cons, List.mem_append,
              List.mem_singleton, List.not_mem_nil, or_false]
            constructor
            · rintro (h | h | h)
              · exact absurd h hph
              · exact Or.inr (Or.inr (Or.inl h))
              · exact absurd h hpf
            · rintro (h | h | h | h)
              · exact absurd h hpq
              · exact absurd h hph
              · exact Or.inr (Or.inl h)
              · exact absurd h hpf
    rw [hcongr]
    have hWnd : (q :: gm.head :: bodies.map Prod.fst ++ [gm.food]).Nodup := by
      rw [List.cons_append, List.nodup_cons]
      constructor
      · intro hmem
        rcases List.mem_append.mp hmem with h | h
        · rcases List.mem_cons.mp h with h | h
          · exact hqh h
          · exact hqk h
        · exact hqf (List.mem_singleton.mp h)
      · rw [List.nodup_append]
        refine ⟨hnd, List.nodup_singleton _, ?_⟩
        intro x hx hx1
        rw [List.mem_singleton] at hx1
        subst hx1
        exact hfm hx
    have hWsub : ∀ a ∈ q :: gm.head :: bodies.map Prod.fst ++ [gm.food],
        a ∈ scanPositions gm.row_count gm.col_count := by
      intro a ha
      rw [mem_scanPositions]
      rw [List.cons_append, List.mem_cons] at ha
      rcases ha with ha | ha
      · exact ha ▸ hqR
      · rcases List.mem_append.mp ha with ha | ha
        · rcases List.mem_cons.mp ha with ha | ha
          · exact ha ▸ hhr
          · obtain ⟨⟨w, dw⟩, hmem, hw⟩ := List.mem_map.mp ha
            exact hw ▸ hbr (w, dw) hmem
        · exact (List.mem_singleton.mp ha) ▸ hfr
    rw [countP_mem_length _ hscannd _ hWnd hWsub]
    simp [List.length_append, List.length_map]

/-- In a growth configuration (the head's destination is the food
cell), `move_snake` takes the fast path: its outcome is determined by
the food regeneration sampler. -/
theorem move_snake_growth_char (gm : Game) (s : Nat → Nat × Nat) (fuel : Nat)
    (hd : Direction) (bodies : List ((Nat × Nat) × Direction))
    (hv : validState gm hd bodies) (hnf : headTarget gm hd = gm.food) :
    move_snake gm s fuel =
      (match generate_food gm.row_count gm.col_count s (fastGrid gm hd) fuel 0 with
        | none => MoveOutcome.errFoodGen
        | some (q, g5) =>
          MoveOutcome.ate { gm with
              grid := g5
              head := headTarget gm hd
              score := gm.score + 1
              food := q
              sleep_time := update_sleep_time gm.sleep_time }) := by
  obtain ⟨hheadc, honehead, hbodies⟩ := validState_fast_hyps gm hd bodies hv
  obtain ⟨hwf, hr, hc, hhr, hfr, hbr, hnd, hfm, hch, hgrid⟩ := hv
  have hfood :
      (getCell gm.grid (headTarget gm hd).1 (headTarget gm hd).2).is_food = true := by
    rw [hnf, hgrid gm.food ((mem_scanPositions _ _ _).mpr hfr)]
    exact (stateCell_is_food_iff gm.head hd bodies gm.food gm.food hfm).mpr rfl
  exact move_snake_fast_path_match gm s fuel gm.head (headTarget gm hd) hd
    (fastGrid gm hd) hhr hheadc rfl hfood honehead hbodies rfl

/-- A growth tick never reaches the final commit: the fast path
returns early. -/
theorem move_snake_growth_not_ok (gm : Game) (s : Nat → Nat × Nat) (fuel : Nat)
    (hd : Direction) (bodies : List ((Nat × Nat) × Direction))
    (hv : validState gm hd bodies) (hnf : headTarget gm hd = gm.food) :
    ∀ g', move_snake gm s fuel ≠ .ok g' := by
  intro g' hok
  have hchar := move_snake_growth_char gm s fuel hd bodies hv hnf
  cases hgen : generate_food gm.row_count gm.col_count s (fastGrid gm hd) fuel 0 with
  | none =>
    rw [hgen] at hchar
    have h2 : MoveOutcome.ok g' = MoveOutcome.errFoodGen := hok.symm.trans hchar
    cases h2
  | some pr =>
    obtain ⟨q, g5⟩ := pr
    rw [hgen] at hchar
    have h2 : MoveOutcome.ok g' = MoveOutcome.ate { gm with
        grid := g5
        head := headTarget gm hd
        score := gm.score + 1
        food := q
        sleep_time := update_sleep_time gm.sleep_time } := hok.symm.trans hchar
    cases h2

/-- A non-growth tick with a free destination never takes the eating
fast path. -/
theorem move_snake_normal_not_ate (gm : Game) (s : Nat → Nat × Nat) (fuel : Nat)
    (hd : Direction) (bodies : List ((Nat × Nat) × Direction))
    (hv : validState gm hd bodies)
    (hnp : headTarget gm hd ∉ gm.head :: bodies.map Prod.fst)
    (hnf : headTarget gm hd ≠ gm.food) :
    ∀ g', move_snake gm s fuel ≠ .ate g' := by
  intro g' hate
  obtain ⟨G, hG, -, -⟩ := move_snake_normal gm s fuel hd bodies hv hnp hnf
  have h2 : MoveOutcome.ate g'
      = MoveOutcome.ok { gm with grid := G, head := headTarget gm hd } :=
    hate.symm.trans hG
  cases h2

/-- The cell counts of any valid state's grid. -/
theorem validState_counts (gm : Game) (hd : Direction)
    (bodies : List ((Nat × Nat) × Direction)) (hv : validState gm hd bodies) :
    headCount gm.grid = 1 ∧ foodCount gm.grid = 1
      ∧ occupiedCount gm.grid = bodies.length + 2 := by
  obtain ⟨hwf, hr, hc, hhr, hfr, hbr, hnd, hfm, hch, hgrid⟩ := hv
  exact counts_of_stateCell_grid gm.row_count gm.col_count gm.grid gm.head hd bodies
    gm.food hwf hgrid hnd hfm hhr hfr hbr

/-- The cell counts of the grid committed by an eating tick. -/
theorem move_snake_ate_counts (gm : Game) (s : Nat → Nat × Nat) (fuel : Nat)
    (hd : Direction) (bodies : List ((Nat × Nat) × Direction)) (g' : Game)
    (hv : validState gm hd bodies) (hnf : headTarget gm hd = gm.food)
    (hate : move_snake gm s fuel = .ate g') :
    headCount g'.grid = 1 ∧ foodCount g'.grid = 1
      ∧ occupiedCount g'.grid = bodies.length + 3 := by
  have hchar := move_snake_growth_char gm s fuel hd bodies hv hnf
  cases hgen : generate_food gm.row_count gm.col_count s (fastGrid gm hd) fuel 0 with
  | none =>
    rw [hgen] at hchar
    have h2 : MoveOutcome.ate g' = MoveOutcome.errFoodGen := hate.symm.trans hchar
    cases h2
  | some pr =>
    obtain ⟨q, g5⟩ := pr
    rw [hgen] at hchar
    have h2 : MoveOutcome.ate g' = MoveOutcome.ate { gm with
        grid := g5
        head := headTarget gm hd
        score := gm.score + 1
        food := q
        sleep_time := update_sleep_time gm.sleep_time } := hate.symm.trans hchar
    injection h2 with h3
    obtain ⟨hqR, hqE, hg5⟩ := generate_food_some gm.row_count gm.col_count s
      (fastGrid gm hd) hv.2.1 hv.2.2.1 fuel 0 q g5 hgen
    have hcounts := growth_counts gm hd bodies hv hnf q g5 hqR hqE hg5
    rw [h3]
    exact hcounts

/-- The cell counts of the grid committed by a normal tick. -/
theorem move_snake_ok_counts (gm : Game) (s : Nat → Nat × Nat) (fuel : Nat)
    (hd : Direction) (bodies : List ((Nat × Nat) × Direction)) (g' : Game)
    (hv : validState gm hd bodies)
    (hnp : headTarget gm hd ∉ gm.head :: bodies.map Prod.fst)
    (hnf : headTarget gm hd ≠ gm.food)
    (hok : move_snake gm s fuel = .ok g') :
    headCount g'.grid = 1 ∧ foodCount g'.grid = 1
      ∧ occupiedCount g'.grid = bodies.length + 2 := by
  obtain ⟨G, hG, hwfG, hpt⟩ := move_snake_normal gm s fuel hd bodies hv hnp hnf
  have h2 : MoveOutcome.ok g'
      = MoveOutcome.ok { gm with grid := G, head := headTarget gm hd } :=
    hok.symm.trans hG
  injection h2 with h3
  obtain ⟨hwf, hr, hc, hhr, hfr, hbr, hnd, hfm, hch, hgrid⟩ := hv
  have hkeys : (((gm.head, hd) :: bodies).dropLast).map Prod.fst
      = (gm.head :: bodies.map Prod.fst).dropLast := by
    rw [List.map_dropLast, List.map_cons]
  have hsub : (((gm.head, hd) :: bodies).dropLast).map Prod.fst
      ⊆ gm.head :: bodies.map Prod.fst := by
    rw [hkeys]
    exact (List.dropLast_sublist _).subset
  have hndnew :
      (headTarget gm hd :: (((gm.head, hd) :: bodies).dropLast).map Prod.fst).Nodup := by
    rw [List.nodup_cons]
    refine ⟨fun h => hnp (hsub h), ?_⟩
    rw [hkeys]
    exact List.Nodup.sublist (List.dropLast_sublist _) hnd
  have hfmnew :
      gm.food ∉ headTarget gm hd :: (((gm.head, hd) :: bodies).dropLast).map Prod.fst := by
    rw [List.mem_cons]
    rintro (h | h)
    · exact hnf h.symm
    · exact hfm (hsub h)
  have hhrnew : inRange gm.row_count gm.col_count (headTarget gm hd) :=
    next_location_inRange gm.row_count gm.col_count gm.head.1 gm.head.2 hd hr hc
      hhr.1 hhr.2
  have hbrnew : ∀ b ∈ ((gm.head, hd) :: bodies).dropLast,
      inRange gm.row_count gm.col_count b.1 := by
    intro b hb
    have hb' : b ∈ (gm.head, hd) :: bodies := (List.dropLast_sublist _).subset hb
    rcases List.mem_cons.mp hb' with h | h
    · rw [h]
      exact hhr
    · exact hbr b h
  have hcounts := counts_of_stateCell_grid gm.row_count gm.col_count G
    (headTarget gm hd) hd (((gm.head, hd) :: bodies).dropLast) gm.food hwfG
    (fun p hps => hpt p ((mem_scanPositions _ _ _).mp hps)) hndnew hfmnew hhrnew hfr
    hbrnew
  have hlen : (((gm.head, hd) :: bodies).dropLast).length = bodies.length := by
    rw [List.length_dropLast]
    simp
  have hocc := hcounts.2.2
  rw [hlen] at hocc
  rw [h3]
  exact ⟨hcounts.1, hcounts.2.1, hocc⟩

/-- C4 (amended): from a valid snake state whose head's destination is
neither a body segment nor the head's own cell, every completing
`move_snake` — the normal commit or the eating fast path — yields a
grid holding exactly one Head cell and exactly one Food cell. -/
theorem move_snake_one_head_one_food (gm : Game) (s : Nat → Nat × Nat) (fuel : Nat)
    (hd : Direction) (bodies : List ((Nat × Nat) × Direction)) (g' : Game)
    (hv : validState gm hd bodies)
    (hnc : headTarget gm hd ∉ bodies.map Prod.fst)
    (hnh : headTarget gm hd ≠ gm.head)
    (hres : move_snake gm s fuel = .ok g' ∨ move_snake gm s fuel = .ate g') :
    headCount g'.grid = 1 ∧ foodCount g'.grid = 1 := by
  by_cases hnf : headTarget gm hd = gm.food
  · rcases hres with hok | hate
    · exact absurd hok (move_snake_growth_not_ok gm s fuel hd bodies hv hnf g')
    · obtain ⟨h1, h2, -⟩ := move_snake_ate_counts gm s fuel hd bodies g' hv hnf hate
      exact ⟨h1, h2⟩
  · have hnp : headTarget gm hd ∉ gm.head :: bodies.map Prod.fst := by
      rw [List.mem_cons]
      rintro (h | h)
      · exact hnh h
      · exact hnc h
    rcases hres with hok | hate
    · obtain ⟨h1, h2, -⟩ := move_snake_ok_counts gm s fuel hd bodies g' hv hnp hnf hok
      exact ⟨h1, h2⟩
    · exact absurd hate (move_snake_normal_not_ate gm s fuel hd bodies hv hnp hnf g')

/-- A 3×1 game whose head at (0,0) heads left: with a single column the
wrap sends the head onto its own cell. The body segment at (1,0) also
steps onto (0,0) and overwrites the freshly written Head. -/
def gm31 : Game :=
  { row_count := 3, col_count := 1
    grid := [[{ value := HEAD, moving := some .left }],
             [{ value := BODY, moving := some .up }],
             [{ value := FOOD }]]
    head := (0, 0), sleep_time := 1, food := (2, 0)
    score := 0, game_over := false, quit := false }

/-- The state `move_snake` commits from `gm31`: no Head cell remains. -/
def gm31' : Game :=
  { gm31 with
      grid := [[{ value := BODY, moving := some .left }], [{}], [{ value := FOOD }]]
      head := (0, 0) }

/-- C4 counterexample: a fully valid snake state (one Head, one Food
disjoint from the snake, a follow-the-leader chain) on which a
completing, non-game-ending `move_snake` commits a grid with zero Head
cells: the head's destination wraps onto its own cell and the trailing
body overwrites it. -/
theorem move_snake_head_count_needs_assumption :
    validState gm31 .left [((1, 0), .up)]
    ∧ move_snake gm31 str0 1 = .ok gm31'
    ∧ headCount gm31'.grid = 0 := by
  refine ⟨by decide, by decide, by decide⟩

/-- A 3×3 snake with one body segment trailing the head, food apart:
the witness state for the normal tick. -/
def gmC45 : Game :=
  { row_count := 3, col_count := 3
    grid := [[{}, {}, {}],
             [{ value := BODY, moving := some .right },
              { value := HEAD, moving := some .right }, {}],
             [{}, {}, { value := FOOD }]]
    head := (1, 1), sleep_time := 1, food := (2, 2)
    score := 0, game_over := false, quit := false }

/-- The state `move_snake` commits from `gmC45`. -/
def gmC45' : Game :=
  { gmC45 with
      grid := [[{}, {}, {}],
               [{}, { value := BODY, moving := some .right },
                { value := HEAD, moving := some .right }],
               [{}, {}, { value := FOOD }]]
      head := (1, 2) }

/-- Closed witness for `move_snake_one_head_one_food`. -/
theorem move_snake_one_head_one_food_witness :
    headCount gmC45'.grid = 1 ∧ foodCount gmC45'.grid = 1 :=
  move_snake_one_head_one_food gmC45 str0 1 .right [((1, 0), .right)] gmC45'
    (by decide) (by decide) (by decide) (Or.inl (by decide))

/-- C5 (amended): from a valid snake state whose head's destination is
neither a body segment nor the head's own cell, the occupied-cell count
is unchanged by a normal tick and grows by exactly 1 on an eating
tick. -/
theorem move_snake_occupied_count (gm : Game) (s : Nat → Nat × Nat) (fuel : Nat)
    (hd : Direction) (bodies : List ((Nat × Nat) × Direction)) (g' : Game)
    (hv : validState gm hd bodies)
    (hnc : headTarget gm hd ∉ bodies.map Prod.fst)
    (hnh : headTarget gm hd ≠ gm.head) :
    (move_snake gm s fuel = .ok g' → occupiedCount g'.grid = occupiedCount gm.grid)
    ∧ (move_snake gm s fuel = .ate g' →
        occupiedCount g'.grid = occupiedCount gm.grid + 1) := by
  have hold := validState_counts gm hd bodies hv
  have hnp : headTarget gm hd ≠ gm.food →
      headTarget gm hd ∉ gm.head :: bodies.map Prod.fst := by
    intro _
    rw [List.mem_cons]
    rintro (h | h)
    · exact hnh h
    · exact hnc h
  constructor
  · intro hok
    by_cases hnf : headTarget gm hd = gm.food
    · exact absurd hok (move_snake_growth_not_ok gm s fuel hd bodies hv hnf g')
    · rw [(move_snake_ok_counts gm s fuel hd bodies g' hv (hnp hnf) hnf hok).2.2,
        hold.2.2]
  · intro hate
    by_cases hnf : headTarget gm hd = gm.food
    · rw [(move_snake_ate_counts gm s fuel hd bodies g' hv hnf hate).2.2, hold.2.2]
    · exact absurd hate
        (move_snake_normal_not_ate gm s fuel hd bodies hv (hnp hnf) hnf g')

/-- C5 counterexample: on the same valid 3×1 state the occupied-cell
count decreases across a completed, non-game-ending `move_snake`, from
3 cells to 2. -/
theorem move_snake_occupied_needs_assumption :
    validState gm31 .left [((1, 0), .up)]
    ∧ move_snake gm31 str0 1 = .ok gm31'
    ∧ occupiedCount gm31.grid = 3
    ∧ occupiedCount gm31'.grid = 2 := by
  refine ⟨by decide, by decide, by decide, by decide⟩

/-- Closed witness for `move_snake_occupied_count`. -/
theorem move_snake_occupied_count_witness :
    occupiedCount gmC45'.grid = occupiedCount gmC45.grid :=
  (move_snake_occupied_count gmC45 str0 1 .right [((1, 0), .right)] gmC45'
    (by decide) (by decide) (by decide)).1 (by decide)

/-- A Body cell of a `stateCell` grid comes from the body list, and its
heading is the looked-up one. -/
theorem stateCell_body_lookup (hp : Nat × Nat) (hd : Direction)
    (bodies : List ((Nat × Nat) × Direction)) (fp p : Nat × Nat)
    (h : (stateCell hp hd bodies fp p).is_body = true) :
    ∃ dq, lookupBody bodies p = some dq
      ∧ stateCell hp hd bodies fp p = { value := BODY, moving := some dq } := by
  rw [stateCell] at h ⊢
  by_cases hph : p = hp
  · rw [if_pos hph] at h
    rw [mk_head_is_body] at h
    cases h
  · rw [if_neg hph] at h ⊢
    cases hlb : lookupBody bodies p with
    | some dq => exact ⟨dq, rfl, rfl⟩
    | none =>
      rw [hlb] at h
      by_cases hpf : p = fp
      · rw [if_pos hpf] at h
        exact absurd h (by decide)
      · rw [if_neg hpf] at h
        exact absurd h (by decide)

/-- C6: on the normal tick, the committed grid's Head cell sits at the
head's destination carrying the head's own heading, and every Body cell
of the committed grid carries exactly the heading the previous grid
held at that same position (follow-the-leader propagation). -/
theorem move_snake_heading_propagation (gm : Game) (s : Nat → Nat × Nat) (fuel : Nat)
    (hd : Direction) (bodies : List ((Nat × Nat) × Direction)) (g' : Game)
    (hv : validState gm hd bodies)
    (hnc : headTarget gm hd ∉ bodies.map Prod.fst)
    (hnh : headTarget gm hd ≠ gm.head)
    (hnf : headTarget gm hd ≠ gm.food)
    (hok : move_snake gm s fuel = .ok g') :
    getCell g'.grid (headTarget gm hd).1 (headTarget gm hd).2
        = { value := HEAD, moving := some hd }
    ∧ ∀ r, inRange gm.row_count gm.col_count r →
        (getCell g'.grid r.1 r.2).is_body = true →
        (getCell g'.grid r.1 r.2).moving = (getCell gm.grid r.1 r.2).moving := by
  have hnp : headTarget gm hd ∉ gm.head :: bodies.map Prod.fst := by
    rw [List.mem_cons]
    rintro (h | h)
    · exact hnh h
    · exact hnc h
  obtain ⟨G, hG, hwfG, hpt⟩ := move_snake_normal gm s fuel hd bodies hv hnp hnf
  have h2 : MoveOutcome.ok g'
      = MoveOutcome.ok { gm with grid := G, head := headTarget gm hd } :=
    hok.symm.trans hG
  injection h2 with h3
  subst h3
  obtain ⟨hwf, hr, hc, hhr, hfr, hbr, hnd, hfm, hch, hgrid⟩ := hv
  have hhrnew : inRange gm.row_count gm.col_count (headTarget gm hd) :=
    next_location_inRange gm.row_count gm.col_count gm.head.1 gm.head.2 hd hr hc
      hhr.1 hhr.2
  constructor
  · show getCell G (headTarget gm hd).1 (headTarget gm hd).2 = _
    rw [hpt (headTarget gm hd) hhrnew, stateCell, if_pos rfl]
  · intro r hrR hbody
    have hGr := hpt r hrR
    have hbody' : (getCell G r.1 r.2).is_body = true := hbody
    rw [hGr] at hbody'
    obtain ⟨dr, hlb, hform⟩ :=
      stateCell_body_lookup (headTarget gm hd) hd (((gm.head, hd) :: bodies).dropLast)
        gm.food r hbody'
    show (getCell G r.1 r.2).moving = (getCell gm.grid r.1 r.2).moving
    rw [hGr, hform, hgrid r ((mem_scanPositions _ _ _).mpr hrR)]
    exact (newBody_moving gm hd bodies r dr hlb).symm

/-- A 3-segment snake: two body cells trailing the head at (1,2) which
is turning up, the spec's chain-propagation scenario. -/
def gmC6 : Game :=
  { row_count := 3, col_count := 4
    grid := [[{}, {}, {}, {}],
             [{ value := BODY, moving := some .right },
              { value := BODY, moving := some .right },
              { value := HEAD, moving := some .up }, {}],
             [{}, {}, {}, { value := FOOD }]]
    head := (1, 2), sleep_time := 1, food := (2, 3)
    score := 0, game_over := false, quit := false }

/-- The state `move_snake` commits from `gmC6`: the body segment now at
(1,2), directly behind the head, carries the head's previous heading
`up`. -/
def gmC6' : Game :=
  { gmC6 with
      grid := [[{}, {}, { value := HEAD, moving := some .up }, {}],
               [{}, { value := BODY, moving := some .right },
                { value := BODY, moving := some .up }, {}],
               [{}, {}, {}, { value := FOOD }]]
      head := (0, 2) }

/-- Closed witness for `move_snake_heading_propagation`. -/
theorem move_snake_heading_propagation_witness :
    getCell gmC6'.grid 0 2 = { value := HEAD, moving := some Direction.up }
    ∧ ∀ r, inRange 3 4 r →
        (getCell gmC6'.grid r.1 r.2).is_body = true →
        (getCell gmC6'.grid r.1 r.2).moving = (getCell gmC6.grid r.1 r.2).moving :=
  move_snake_heading_propagation gmC6 str0 1 .up
    [((1, 1), .right), ((1, 0), .right)] gmC6' (by decide) (by decide) (by decide)
    (by decide) (by decide)

end Snakes
